import Mathlib

/-!
# MCP23017 16-bit I²C GPIO expander driver (7Semi)

A shallow embedding of `7Semi_MCP23017.h` / `7Semi_MCP23017.cpp`.

* Bytes (`uint8_t`) are natural numbers reduced `% 256` wherever the C++ code
  narrows a value to eight bits.
* The driver talks to the chip only through a `TwoWire` bus object.  That class
  belongs to the Arduino core, not to this library, so the bus together with a
  simulated chip behind it is modelled here as one explicit state that every
  driver function threads through.
* Every driver function is translated statement by statement; a function that
  returns a value returns a pair `(value, bus)`.
-/

namespace MCP23017

/-! ## Constants of `7Semi_MCP23017.h` -/

def IODIRA : Nat := 0x00
def IODIRB : Nat := 0x01
def IPOLA : Nat := 0x02
def IPOLB : Nat := 0x03
def INTEA : Nat := 0x04
def INTEB : Nat := 0x05
def DEFVALA : Nat := 0x06
def DEFVALB : Nat := 0x07
def INTCONA : Nat := 0x08
def INTCONB : Nat := 0x09
def INTCAPA : Nat := 0x10
def INTCAPB : Nat := 0x11
def GPIOA : Nat := 0x12
def GPIOB : Nat := 0x13
def OLATA : Nat := 0x14
def OLATB : Nat := 0x15
def GPPUA : Nat := 0x0C
def GPPUB : Nat := 0x0D
def INTFA : Nat := 0x0E
def INTFB : Nat := 0x0F

/-- The sixteen logical pins, `enum pins` of the header. -/
inductive pins where
  | GPA0 | GPA1 | GPA2 | GPA3 | GPA4 | GPA5 | GPA6 | GPA7
  | GPB0 | GPB1 | GPB2 | GPB3 | GPB4 | GPB5 | GPB6 | GPB7
  deriving DecidableEq, Repr

/-- Integer value of an enumerator (`GPA0 = 0`, each next one is one more). -/
def pins.toNat : pins → Nat
  | .GPA0 => 0 | .GPA1 => 1 | .GPA2 => 2 | .GPA3 => 3
  | .GPA4 => 4 | .GPA5 => 5 | .GPA6 => 6 | .GPA7 => 7
  | .GPB0 => 8 | .GPB1 => 9 | .GPB2 => 10 | .GPB3 => 11
  | .GPB4 => 12 | .GPB5 => 13 | .GPB6 => 14 | .GPB7 => 15

/-! ## Constants of `Arduino.h` -/

/-- Modelled from the spec: `Arduino.h` is not among the sources.  `HIGH` is the
logical high level; every Arduino core defines it as `0x1`. -/
def HIGH : Nat := 1

/-- Modelled from the spec: `Arduino.h` is not among the sources.  `LOW` is the
logical low level; every Arduino core defines it as `0x0`. -/
def LOW : Nat := 0

/-- Modelled from the spec: `Arduino.h` is not among the sources.  The spec names
`INPUT` and `OUTPUT` as the two pin modes; the encoding of the AVR core
(`INPUT 0x0`) is used.  Nothing below depends on the numbers beyond
`INPUT ≠ OUTPUT`. -/
def INPUT : Nat := 0

/-- Modelled from the spec: see `INPUT`; the AVR core has `OUTPUT 0x1`. -/
def OUTPUT : Nat := 1

/-- Modelled from the spec: see `INPUT`; the AVR core has `INPUT_PULLUP 0x2`. -/
def INPUT_PULLUP : Nat := 2

/-! ## The bus and the simulated chip -/

/-- One transaction as seen on the wire, with whether the device acknowledged it. -/
inductive Txn where
  | write (address : Nat) (payload : List Nat) (acked : Bool)
  | read (address : Nat) (quantity : Nat) (acked : Bool)
  deriving DecidableEq, Repr

/-- Modelled from the spec: the `TwoWire` transport of the Arduino core and the
device behind it are not among the sources.  This is the simulated bus transport
of the spec: a mock device exposing a register file with its documented side
effects, plus the transmit and receive buffers of the transport.

* `regs` is the register file of the chip, by register address;
* `ptr` is the register address latched by the last acknowledged write;
* `ack n` tells whether the `n`-th transaction on the bus is acknowledged
  (`n` counts all transactions so far, that is, the length of `log`);
* `loopback` makes a write to `OLATx` visible in `GPIOx` on the pins that are
  configured as outputs (the level register reflects the latch);
* `readClears` gives the chip its read-clears behaviour: reading `INTCAPx` (or
  `GPIOx`, as the notes in the sources say) clears the latched interrupt
  condition of that port and its flag register `INTFx`;
* `latchA`, `latchB` say whether a latched interrupt condition is pending;
* `noData` is what `read()` hands back when the receive buffer is empty;
* `log` records every transaction in order. -/
structure TwoWire where
  regs : Nat → Nat
  ptr : Nat
  ack : Nat → Bool
  loopback : Bool
  readClears : Bool
  latchA : Bool
  latchB : Bool
  noData : Int
  txAddress : Nat
  txBuffer : List Nat
  rxBuffer : List Nat
  log : List Txn

/-- Register file `regs` with register `a` replaced by `v`. -/
def setReg (regs : Nat → Nat) (a v : Nat) : Nat → Nat :=
  fun r => if r = a then v else regs r

/-- Complement of a mask as it acts on an eight-bit operand: `~m` of C++ is an
`int` with all high bits set; and-ed into a `uint8_t` only its low eight bits
matter, and those are `0xFF ^ (m mod 256)`. -/
def compl8 (m : Nat) : Nat := 0xFF ^^^ (m % 256)

namespace TwoWire

/-- Modelled from the spec: `TwoWire::begin` (bus start-up, an external concern);
it empties both buffers. -/
def begin (w : TwoWire) : TwoWire :=
  { w with txBuffer := [], rxBuffer := [] }

/-- Modelled from the spec: `TwoWire::beginTransmission(address)` opens a write
transaction to `address` with an empty payload. -/
def beginTransmission (w : TwoWire) (address : Nat) : TwoWire :=
  { w with txAddress := address % 256, txBuffer := [] }

/-- Modelled from the spec: `TwoWire::write(uint8_t)` queues one byte. -/
def write (w : TwoWire) (data : Nat) : TwoWire :=
  { w with txBuffer := w.txBuffer ++ [data % 256] }

/-- Modelled from the spec: what the simulated chip does with an acknowledged
write `[register address][data byte]`: it latches the register address and, when
a data byte follows, sets the full content of that register.  On a loopback
device a write to `OLATx` also shows in `GPIOx` on the output pins (direction
bit 0); input pins keep their level. -/
def deviceWrite (w : TwoWire) : List Nat → TwoWire
  | [] => w
  | [reg] => { w with ptr := reg }
  | reg :: value :: _ =>
    let regs := setReg w.regs reg value
    let regs :=
      if w.loopback && reg == OLATA then
        setReg regs GPIOA
          ((w.regs GPIOA % 256 &&& w.regs IODIRA) ||| (value &&& compl8 (w.regs IODIRA)))
      else if w.loopback && reg == OLATB then
        setReg regs GPIOB
          ((w.regs GPIOB % 256 &&& w.regs IODIRB) ||| (value &&& compl8 (w.regs IODIRB)))
      else regs
    { w with ptr := reg, regs := regs }

/-- Modelled from the spec: side effect of an acknowledged read of the register
at `ptr` on the simulated chip.  With `readClears`, reading `INTCAPx` or `GPIOx`
clears the latched interrupt condition of port x and its flag register. -/
def deviceRead (w : TwoWire) : TwoWire :=
  let clearA := w.readClears && (w.ptr == INTCAPA || w.ptr == GPIOA)
  let clearB := w.readClears && (w.ptr == INTCAPB || w.ptr == GPIOB)
  { w with
    regs := if clearA then setReg w.regs INTFA 0
            else if clearB then setReg w.regs INTFB 0 else w.regs
    latchA := if clearA then false else w.latchA
    latchB := if clearB then false else w.latchB }

/-- Modelled from the spec: `TwoWire::endTransmission()` sends the queued payload
as one write transaction and returns its status: `0` when the device
acknowledged, `2` (negative acknowledgement) otherwise.  Only an acknowledged
transaction reaches the chip. -/
def endTransmission (w : TwoWire) : Nat × TwoWire :=
  let acked := w.ack w.log.length
  let w1 := { w with log := w.log ++ [Txn.write w.txAddress w.txBuffer acked], txBuffer := [] }
  if acked then (0, w1.deviceWrite w.txBuffer) else (2, w1)

/-- Modelled from the spec: `TwoWire::requestFrom(address, quantity)` issues one
read transaction; when acknowledged the chip supplies the content of the
register at `ptr`, otherwise the receive buffer stays empty.  Returns the number
of bytes received. -/
def requestFrom (w : TwoWire) (address quantity : Nat) : Nat × TwoWire :=
  let acked := w.ack w.log.length
  let w1 := { w with log := w.log ++ [Txn.read (address % 256) quantity acked] }
  if acked then
    (quantity, { w1.deviceRead with rxBuffer := List.replicate quantity (w.regs w.ptr % 256) })
  else (0, { w1 with rxBuffer := [] })

/-- Modelled from the spec: `TwoWire::read()` takes the next received byte, or
hands back `noData` when there is none. -/
def read (w : TwoWire) : Int × TwoWire :=
  match w.rxBuffer with
  | [] => (w.noData, w)
  | b :: rest => ((b : Int), { w with rxBuffer := rest })

end TwoWire

/-! ## The driver (`7Semi_MCP23017.cpp`) -/

/-- Driver instance state: the bus address.  The bus handle `_i2c` is the
`TwoWire` state passed to every function. -/
structure MCP23017_7Semi where
  _address : Nat

namespace MCP23017_7Semi

/-- `bool writeReg(uint8_t reg, uint8_t value)`. -/
def writeReg (self : MCP23017_7Semi) (reg value : Nat) (w : TwoWire) : Bool × TwoWire :=
  let w := w.beginTransmission self._address
  let w := w.write reg
  let w := w.write value
  let r := w.endTransmission
  if r.1 = 0 then (true, r.2) else (false, r.2)

/-- `uint8_t readReg(uint8_t reg)`: the status of the address write and the byte
count of the request are dropped; the `int` that `read()` hands back is narrowed
to `uint8_t`. -/
def readReg (self : MCP23017_7Semi) (reg : Nat) (w : TwoWire) : Nat × TwoWire :=
  let w := w.beginTransmission self._address
  let w := w.write reg
  let w := w.endTransmission.2
  let w := (w.requestFrom self._address 1).2
  let r := w.read
  ((r.1 % 256).toNat, r.2)

/-- `bool begin(int sda, int scl, uint32_t freq)`; with `ARDUINO` defined the
pin and frequency arguments are unused. -/
def begin (self : MCP23017_7Semi) (w : TwoWire) : Bool × TwoWire :=
  let w := w.begin
  -- Check if device responds
  let w := w.beginTransmission self._address
  let r := w.endTransmission
  if r.1 ≠ 0 then (false, r.2) else
  let r := self.writeReg IODIRA 0x00 r.2
  if !r.1 then (false, r.2) else
  let r := self.writeReg IODIRB 0x00 r.2
  if !r.1 then (false, r.2) else
  let r := self.writeReg GPPUA 0x00 r.2
  if !r.1 then (false, r.2) else
  let r := self.writeReg GPPUB 0x00 r.2
  if !r.1 then (false, r.2) else
  (true, r.2)

/-- `void pinMode(enum pins pin, uint8_t mode)`. -/
def pinMode (self : MCP23017_7Semi) (pin : pins) (mode : Nat) (w : TwoWire) : TwoWire :=
  if pin.toNat < 8 then
    let r := self.readReg IODIRA w
    let iodir :=
      if mode % 256 = INPUT then (r.1 ||| (1 <<< pin.toNat)) % 256
      else r.1 &&& compl8 (1 <<< pin.toNat)
    (self.writeReg IODIRA iodir r.2).2
  else
    let r := self.readReg IODIRB w
    let iodir :=
      if mode % 256 = INPUT then (r.1 ||| (1 <<< (pin.toNat - 8))) % 256
      else r.1 &&& compl8 (1 <<< (pin.toNat - 8))
    (self.writeReg IODIRB iodir r.2).2

/-- `uint8_t readPin(enum pins pin)`. -/
def readPin (self : MCP23017_7Semi) (pin : pins) (w : TwoWire) : Nat × TwoWire :=
  if pin.toNat < 8 then
    let r := self.readReg GPIOA w
    (if r.1 &&& (1 <<< pin.toNat) ≠ 0 then HIGH else LOW, r.2)
  else
    let r := self.readReg GPIOB w
    (if r.1 &&& (1 <<< (pin.toNat - 8)) ≠ 0 then HIGH else LOW, r.2)

/-- `void digitalWrite(enum pins pin, bool value)`; in `value == HIGH` the
`bool` is promoted to `0` or `1`. -/
def digitalWrite (self : MCP23017_7Semi) (pin : pins) (value : Bool) (w : TwoWire) : TwoWire :=
  if pin.toNat < 8 then
    let r := self.readReg GPIOA w
    let currentState :=
      if value.toNat = HIGH then (r.1 ||| (1 <<< pin.toNat)) % 256
      else r.1 &&& compl8 (1 <<< pin.toNat)
    (self.writeReg OLATA currentState r.2).2
  else
    let r := self.readReg GPIOB w
    let currentState :=
      if value.toNat = HIGH then (r.1 ||| (1 <<< (pin.toNat - 8))) % 256
      else r.1 &&& compl8 (1 <<< (pin.toNat - 8))
    (self.writeReg OLATB currentState r.2).2

/-- `uint8_t digitalRead(enum pins pin)`. -/
def digitalRead (self : MCP23017_7Semi) (pin : pins) (w : TwoWire) : Nat × TwoWire :=
  self.readPin pin w

/-- `void togglePin(enum pins pin)`; the `int` chosen by `?:` becomes the `bool`
argument of `digitalWrite` (non-zero is `true`). -/
def togglePin (self : MCP23017_7Semi) (pin : pins) (w : TwoWire) : TwoWire :=
  let r := self.digitalRead pin w
  let currentState := r.1
  self.digitalWrite pin (decide ((if currentState = HIGH then LOW else HIGH) ≠ 0)) r.2

/-- `void writePin(enum pins pin, uint8_t value)` (private). -/
def writePin (self : MCP23017_7Semi) (pin : pins) (value : Nat) (w : TwoWire) : TwoWire :=
  if pin.toNat < 8 then
    let r := self.readReg GPIOA w
    let currentState :=
      if value % 256 = HIGH then (r.1 ||| (1 <<< pin.toNat)) % 256
      else r.1 &&& compl8 (1 <<< pin.toNat)
    (self.writeReg OLATA currentState r.2).2
  else
    let r := self.readReg GPIOB w
    let currentState :=
      if value % 256 = HIGH then (r.1 ||| (1 <<< (pin.toNat - 8))) % 256
      else r.1 &&& compl8 (1 <<< (pin.toNat - 8))
    (self.writeReg OLATB currentState r.2).2

/-- `void pullUp(enum pins pin, bool enable)`. -/
def pullUp (self : MCP23017_7Semi) (pin : pins) (enable : Bool) (w : TwoWire) : TwoWire :=
  if pin.toNat < 8 then
    let r := self.readReg GPPUA w
    let currentPullup :=
      if enable then (r.1 ||| (1 <<< pin.toNat)) % 256
      else r.1 &&& compl8 (1 <<< pin.toNat)
    (self.writeReg GPPUA currentPullup r.2).2
  else
    let r := self.readReg GPPUB w
    let currentPullup :=
      if enable then (r.1 ||| (1 <<< (pin.toNat - 8))) % 256
      else r.1 &&& compl8 (1 <<< (pin.toNat - 8))
    (self.writeReg GPPUB currentPullup r.2).2

/-- `void setPolarity(enum pins pin, bool invert)`. -/
def setPolarity (self : MCP23017_7Semi) (pin : pins) (invert : Bool) (w : TwoWire) : TwoWire :=
  if pin.toNat < 8 then
    let r := self.readReg IPOLA w
    let currentPolarity :=
      if invert then (r.1 ||| (1 <<< pin.toNat)) % 256
      else r.1 &&& compl8 (1 <<< pin.toNat)
    (self.writeReg IPOLA currentPolarity r.2).2
  else
    let r := self.readReg IPOLB w
    let currentPolarity :=
      if invert then (r.1 ||| (1 <<< (pin.toNat - 8))) % 256
      else r.1 &&& compl8 (1 <<< (pin.toNat - 8))
    (self.writeReg IPOLB currentPolarity r.2).2

/-- `void enableInterrupt(enum pins pin, bool compareToDefval, bool defval)`. -/
def enableInterrupt (self : MCP23017_7Semi) (pin : pins) (compareToDefval defval : Bool)
    (w : TwoWire) : TwoWire :=
  let port := if pin.toNat < 8 then 0 else 1
  let bit := if pin.toNat < 8 then pin.toNat else pin.toNat - 8
  if port = 0 then
    let r := self.readReg INTCONA w
    let intcon :=
      if compareToDefval then (r.1 ||| (1 <<< bit)) % 256 else r.1 &&& compl8 (1 <<< bit)
    let w := (self.writeReg INTCONA intcon r.2).2

    let r := self.readReg DEFVALA w
    let defv :=
      if defval then (r.1 ||| (1 <<< bit)) % 256 else r.1 &&& compl8 (1 <<< bit)
    let w := (self.writeReg DEFVALA defv r.2).2

    let r := self.readReg INTEA w
    let inte := (r.1 ||| (1 <<< bit)) % 256
    (self.writeReg INTEA inte r.2).2
  else
    let r := self.readReg INTCONB w
    let intcon :=
      if compareToDefval then (r.1 ||| (1 <<< bit)) % 256 else r.1 &&& compl8 (1 <<< bit)
    let w := (self.writeReg INTCONB intcon r.2).2

    let r := self.readReg DEFVALB w
    let defv :=
      if defval then (r.1 ||| (1 <<< bit)) % 256 else r.1 &&& compl8 (1 <<< bit)
    let w := (self.writeReg DEFVALB defv r.2).2

    let r := self.readReg INTEB w
    let inte := (r.1 ||| (1 <<< bit)) % 256
    (self.writeReg INTEB inte r.2).2

/-- `void disableInterrupt(enum pins pin)`. -/
def disableInterrupt (self : MCP23017_7Semi) (pin : pins) (w : TwoWire) : TwoWire :=
  if pin.toNat < 8 then
    let r := self.readReg INTEA w
    let inte := r.1 &&& compl8 (1 <<< pin.toNat)
    (self.writeReg INTEA inte r.2).2
  else
    let r := self.readReg INTEB w
    let inte := r.1 &&& compl8 (1 <<< (pin.toNat - 8))
    (self.writeReg INTEB inte r.2).2

/-- `void clearInterrupt()`. -/
def clearInterrupt (self : MCP23017_7Semi) (w : TwoWire) : TwoWire :=
  let w := (self.readReg INTCAPA w).2
  let w := (self.readReg INTCAPB w).2
  let w := (self.writeReg INTFA 0x00 w).2
  (self.writeReg INTFA 0x00 w).2

/-- `uint8_t getInterrupt(enum pins pin)`. -/
def getInterrupt (self : MCP23017_7Semi) (pin : pins) (w : TwoWire) : Nat × TwoWire :=
  if pin.toNat < 8 then
    let r := self.readReg INTFA w
    (if r.1 &&& (1 <<< pin.toNat) ≠ 0 then 1 else 0, r.2)
  else
    let r := self.readReg INTFB w
    (if r.1 &&& (1 <<< (pin.toNat - 8)) ≠ 0 then 1 else 0, r.2)

end MCP23017_7Semi

/-! ## Sample states and the start-up sequence -/

/-- Payloads of the five write transactions that `begin` attempts, in order: the
zero-length probe, then direction A, direction B, pull-up A, pull-up B, each
with the value `0x00`. -/
def beginPayloads : List (List Nat) :=
  [[], [IODIRA, 0x00], [IODIRB, 0x00], [GPPUA, 0x00], [GPPUB, 0x00]]


/-- A driver instance at the default bus address `0x20`. -/
def sampleDriver : MCP23017_7Semi := ⟨0x20⟩

/-- Register contents of the sample chips: every direction bit of port A and the
low nibble of port B are outputs, the latches differ from the levels, and both
flag registers show a pending interrupt. -/
def sampleRegs : Nat → Nat := fun r =>
  if r = IODIRA then 0x00 else if r = IODIRB then 0xF0
  else if r = GPIOA then 0x5A else if r = GPIOB then 0xC3
  else if r = OLATA then 0x0F else if r = OLATB then 0x30
  else if r = INTFA then 0x04 else if r = INTFB then 0x20
  else if r = INTEA then 0xFF else if r = INTEB then 0x2C
  else if r = INTCONA then 0x81 else if r = DEFVALA then 0x7E
  else 0xA5

/-- A simulated chip that acknowledges every transaction, with loopback ports
and read-clears interrupt behaviour.  Its transport has the no-data value of the
Arduino cores, whose `TwoWire::read` hands back -1 when nothing was received. -/
def sampleBus : TwoWire where
  regs := sampleRegs
  ptr := 0
  ack := fun _ => true
  loopback := true
  readClears := true
  latchA := true
  latchB := true
  noData := -1
  txAddress := 0
  txBuffer := []
  rxBuffer := []
  log := []

/-- The sample chip with no device answering: no transaction is acknowledged. -/
def absentBus : TwoWire := { sampleBus with ack := fun _ => false }

/-- The sample chip failing exactly the transaction number `k`. -/
def flakyBus (k : Nat) : TwoWire := { sampleBus with ack := fun n => decide (n ≠ k) }

/-- The sample chip as a plain register file: no loopback, no read-clears
behaviour. -/
def plainBus : TwoWire := { sampleBus with loopback := false, readClears := false }

/-! ## Register-level reading of the bus log -/

/-- One access to a chip register. -/
inductive RegOp where
  | read (reg : Nat)
  | write (reg value : Nat)
  deriving DecidableEq, Repr

/-- Register addressed by an access. -/
def RegOp.reg : RegOp → Nat
  | .read r => r
  | .write r _ => r

/-- Whether an access is a register write. -/
def RegOp.isWrite : RegOp → Bool
  | .read _ => false
  | .write _ _ => true

/-- Register accesses that a run of bus transactions amounts to on the chip, whose
address pointer starts at `ptr`: an acknowledged write `[reg]` moves the pointer,
an acknowledged write `[reg, value, ..]` moves the pointer and writes the
register, an acknowledged read reads the register under the pointer once per
requested byte; a transaction that is not acknowledged does not reach the chip. -/
def regOps (ptr : Nat) : List Txn → List RegOp
  | [] => []
  | Txn.write _ [] _ :: ts => regOps ptr ts
  | Txn.write _ [reg] acked :: ts => regOps (if acked then reg else ptr) ts
  | Txn.write _ (reg :: value :: _) acked :: ts =>
    (if acked then [RegOp.write reg value] else []) ++ regOps (if acked then reg else ptr) ts
  | Txn.read _ quantity acked :: ts =>
    (if acked then List.replicate quantity (RegOp.read ptr) else []) ++ regOps ptr ts

/-- Transactions that were put on the bus between state `w` and a later state. -/
def newTxns (w later : TwoWire) : List Txn := later.log.drop w.log.length

/-- The ten registers of port A. -/
def portA : List Nat :=
  [IODIRA, IPOLA, INTEA, DEFVALA, INTCONA, INTCAPA, GPIOA, OLATA, GPPUA, INTFA]

/-- The ten registers of port B. -/
def portB : List Nat :=
  [IODIRB, IPOLB, INTEB, DEFVALB, INTCONB, INTCAPB, GPIOB, OLATB, GPPUB, INTFB]

/-- Registers of the port a pin lies on: port A for pins 0..7, port B for 8..15. -/
def ownPort (pin : pins) : List Nat := if pin.toNat < 8 then portA else portB

/-- Registers of the port a pin does not lie on. -/
def otherPort (pin : pins) : List Nat := if pin.toNat < 8 then portB else portA

/-- The step from `w` to `later` accessed registers of `own` only and left every
register of `other` with its content. -/
def StaysOnPort (own other : List Nat) (w later : TwoWire) : Prop :=
  (∀ op ∈ regOps w.ptr (newTxns w later), op.reg ∈ own) ∧
  ∀ a ∈ other, later.regs a = w.regs a

/-- The twenty register address names of the header, as (port A, port B) pairs
in the order direction, polarity, interrupt-enable, default-value,
interrupt-control, interrupt-capture, live-level, pull-up, interrupt-flag,
output-latch. -/
def registerPairs : List (Nat × Nat) :=
  [(IODIRA, IODIRB), (IPOLA, IPOLB), (INTEA, INTEB), (DEFVALA, DEFVALB), (INTCONA, INTCONB),
   (INTCAPA, INTCAPB), (GPIOA, GPIOB), (GPPUA, GPPUB), (INTFA, INTFB), (OLATA, OLATB)]

/-- All named register addresses. -/
def registerAddresses : List Nat :=
  registerPairs.map Prod.fst ++ registerPairs.map Prod.snd

/-! ## The read-modify-write pattern in the words of the spec -/

/-- Byte `x` with bit `bit` set to `flag` and the other bits kept. -/
def setBitTo (x bit : Nat) (flag : Bool) : Nat :=
  if flag then x ||| 2 ^ bit else x &&& (0xFF - 2 ^ bit)

/-- The pattern the spec describes for the single-bit setters: read the register
of the port of the pin (`regA` for pins 0..7, `regB` for pins 8..15), set bit
`pin mod 8` to `flag` keeping the other bits, write the byte back to the same
register. -/
def rmw (self : MCP23017_7Semi) (regA regB : Nat) (pin : pins) (flag : Bool)
    (w : TwoWire) : TwoWire :=
  let reg := if pin.toNat < 8 then regA else regB
  let r := self.readReg reg w
  (self.writeReg reg (setBitTo r.1 (pin.toNat % 8) flag) r.2).2

end MCP23017

/-! ## Bit-level facts about `|= (1 << b)` and `&= ~(1 << b)` -/

namespace MCP23017
open MCP23017_7Semi

theorem testBit_255 (j : Nat) : (255 : Nat).testBit j = decide (j < 8) := by
  have h : (255 : Nat) = 2 ^ 8 - 1 := by norm_num
  rw [h, Nat.testBit_two_pow_sub_one]

theorem testBit_setBit (x b j : Nat) :
    ((x ||| (1 <<< b)) % 256).testBit j = (decide (j < 8) && (x.testBit j || decide (b = j))) := by
  have h : (256 : Nat) = 2 ^ 8 := by norm_num
  rw [h, Nat.testBit_mod_two_pow, Nat.testBit_or, Nat.one_shiftLeft, Nat.testBit_two_pow]

theorem testBit_clearBit (x b j : Nat) (hb : b < 8) :
    (x &&& compl8 (1 <<< b)).testBit j = (x.testBit j && (decide (j < 8) && !decide (b = j))) := by
  have h1 : (1 <<< b) % 256 = 2 ^ b := by
    rw [Nat.one_shiftLeft]
    apply Nat.mod_eq_of_lt
    calc 2 ^ b < 2 ^ 8 := Nat.pow_lt_pow_right (by norm_num) hb
      _ = 256 := by norm_num
  simp only [compl8, h1, Nat.testBit_and, Nat.testBit_xor, testBit_255, Nat.testBit_two_pow]
  by_cases hj : j < 8 <;> by_cases hbj : b = j <;> simp [hj, hbj]
  omega

theorem testBit_mod256 (x j : Nat) : (x % 256).testBit j = (decide (j < 8) && x.testBit j) := by
  have h : (256 : Nat) = 2 ^ 8 := by norm_num
  rw [h, Nat.testBit_mod_two_pow]

theorem setBit_lt (x b : Nat) : (x ||| (1 <<< b)) % 256 < 256 := Nat.mod_lt _ (by norm_num)

theorem clearBit_lt (x b : Nat) : x &&& compl8 (1 <<< b) < 256 := by
  have : compl8 (1 <<< b) < 2 ^ 8 := by
    unfold compl8
    apply Nat.xor_lt_two_pow <;> omega
  exact lt_of_le_of_lt Nat.and_le_right (by simpa using this)

/-! ## Register access on an acknowledging bus -/

theorem pins.toNat_lt (pin : pins) : pin.toNat < 16 := by
  cases pin <;> decide

/-- The enumerators are exactly the pin numbers 0..15. -/
theorem pins.exists_of_lt (n : Nat) (h : n < 16) : ∃ pin : pins, pin.toNat = n := by
  interval_cases n
  exacts [⟨.GPA0, rfl⟩, ⟨.GPA1, rfl⟩, ⟨.GPA2, rfl⟩, ⟨.GPA3, rfl⟩, ⟨.GPA4, rfl⟩, ⟨.GPA5, rfl⟩,
    ⟨.GPA6, rfl⟩, ⟨.GPA7, rfl⟩, ⟨.GPB0, rfl⟩, ⟨.GPB1, rfl⟩, ⟨.GPB2, rfl⟩, ⟨.GPB3, rfl⟩,
    ⟨.GPB4, rfl⟩, ⟨.GPB5, rfl⟩, ⟨.GPB6, rfl⟩, ⟨.GPB7, rfl⟩]

theorem readReg_fst (self : MCP23017_7Semi) (reg : Nat) (w : TwoWire) (h : ∀ n, w.ack n = true) :
    (self.readReg reg w).1 = w.regs (reg % 256) % 256 := by
  simp [readReg, TwoWire.beginTransmission, TwoWire.write, TwoWire.endTransmission,
    TwoWire.requestFrom, TwoWire.read, TwoWire.deviceWrite, TwoWire.deviceRead, h]
  omega

theorem readReg_snd (self : MCP23017_7Semi) (reg : Nat) (w : TwoWire) (h : ∀ n, w.ack n = true) :
    (self.readReg reg w).2 =
      { TwoWire.deviceRead { w with ptr := reg % 256 } with
        txAddress := self._address % 256, txBuffer := [], rxBuffer := [],
        log := w.log ++ [Txn.write (self._address % 256) [reg % 256] true,
                         Txn.read (self._address % 256) 1 true] } := by
  simp [readReg, TwoWire.beginTransmission, TwoWire.write, TwoWire.endTransmission,
    TwoWire.requestFrom, TwoWire.read, TwoWire.deviceWrite, TwoWire.deviceRead, h]

theorem writeReg_fst (self : MCP23017_7Semi) (reg v : Nat) (w : TwoWire) (h : ∀ n, w.ack n = true) :
    (self.writeReg reg v w).1 = true := by
  simp [writeReg, TwoWire.beginTransmission, TwoWire.write, TwoWire.endTransmission, h]

theorem writeReg_snd (self : MCP23017_7Semi) (reg v : Nat) (w : TwoWire) (h : ∀ n, w.ack n = true) :
    (self.writeReg reg v w).2 =
      { TwoWire.deviceWrite w [reg % 256, v % 256] with
        txAddress := self._address % 256, txBuffer := [],
        log := w.log ++ [Txn.write (self._address % 256) [reg % 256, v % 256] true] } := by
  simp [writeReg, TwoWire.beginTransmission, TwoWire.write, TwoWire.endTransmission, h,
    TwoWire.deviceWrite]

theorem testBit_setBit_self (x b : Nat) (hb : b < 8) :
    ((x ||| (1 <<< b)) % 256).testBit b = true := by
  rw [testBit_setBit]; simp [hb]

theorem testBit_setBit_other (x b j : Nat) (hj : j < 8) (hne : j ≠ b) :
    ((x ||| (1 <<< b)) % 256).testBit j = x.testBit j := by
  rw [testBit_setBit]; simp [hj, Ne.symm hne]

theorem testBit_clearBit_self (x b : Nat) (hb : b < 8) :
    (x &&& compl8 (1 <<< b)).testBit b = false := by
  rw [testBit_clearBit x b b hb]; simp

theorem testBit_clearBit_other (x b j : Nat) (hb : b < 8) (hj : j < 8) (hne : j ≠ b) :
    (x &&& compl8 (1 <<< b)).testBit j = x.testBit j := by
  rw [testBit_clearBit x b j hb]; simp [hj, Ne.symm hne]

theorem testBit_mod256_lt (x j : Nat) (hj : j < 8) : (x % 256).testBit j = x.testBit j := by
  rw [testBit_mod256]; simp [hj]

/-- Read-modify-write of one register on an acknowledging bus: apart from the
side effects of the chip (a read of `INTCAPx`/`GPIOx`, a write of `OLATx`) the
register file changes in the written register only. -/
theorem rmw_regs (self : MCP23017_7Semi) (reg : Nat) (f : Nat → Nat) (w : TwoWire)
    (hack : ∀ n, w.ack n = true) (hreg : reg < 256)
    (hside : reg ≠ INTCAPA ∧ reg ≠ INTCAPB ∧ reg ≠ GPIOA ∧ reg ≠ GPIOB ∧ reg ≠ OLATA ∧ reg ≠ OLATB) :
    (self.writeReg reg (f (self.readReg reg w).1) (self.readReg reg w).2).2.regs =
      setReg w.regs reg (f (w.regs reg % 256) % 256) ∧
    ∀ n, (self.writeReg reg (f (self.readReg reg w).1) (self.readReg reg w).2).2.ack n = true := by
  obtain ⟨h1, h2, h3, h4, h5, h6⟩ := hside
  have hm : reg % 256 = reg := Nat.mod_eq_of_lt hreg
  simp [readReg_fst, readReg_snd, writeReg_snd, hack, TwoWire.deviceRead, TwoWire.deviceWrite, hm,
    h1, h2, h3, h4, h5, h6]

/-- The byte computed by `x |= (1 << b)` / `x &= ~(1 << b)` from a byte read off
the bus: bit `b` is as chosen, the other seven bits are those of `x`. -/
theorem updBit_spec (c : Prop) [Decidable c] (x b : Nat) (hb : b < 8) :
    ((if c then (x % 256 ||| (1 <<< b)) % 256 else x % 256 &&& compl8 (1 <<< b)) % 256).testBit b
        = decide c ∧
    (∀ j, j < 8 → j ≠ b →
      ((if c then (x % 256 ||| (1 <<< b)) % 256 else x % 256 &&& compl8 (1 <<< b)) % 256).testBit j
        = x.testBit j) ∧
    (if c then (x % 256 ||| (1 <<< b)) % 256 else x % 256 &&& compl8 (1 <<< b)) % 256 < 256 := by
  refine ⟨?_, fun j hj hne => ?_, Nat.mod_lt _ (by norm_num)⟩
  · by_cases hc : c
    · rw [if_pos hc, testBit_mod256_lt _ _ hb, testBit_setBit_self _ _ hb]; simp [hc]
    · rw [if_neg hc, testBit_mod256_lt _ _ hb, testBit_clearBit_self _ _ hb]; simp [hc]
  · by_cases hc : c
    · rw [if_pos hc, testBit_mod256_lt _ _ hj, testBit_setBit_other _ _ _ hj hne,
        testBit_mod256_lt _ _ hj]
    · rw [if_neg hc, testBit_mod256_lt _ _ hj, testBit_clearBit_other _ _ _ hb hj hne,
        testBit_mod256_lt _ _ hj]

theorem setReg_same (regs : Nat → Nat) (a v : Nat) : setReg regs a v a = v := by
  simp [setReg]

theorem setReg_other (regs : Nat → Nat) (a v r : Nat) (h : r ≠ a) : setReg regs a v r = regs r := by
  simp [setReg, h]

/-! ## Pin direction -/

/-- C1: for every pin, every mode in {INPUT, OUTPUT} and every prior state of an
acknowledging bus, after `pinMode pin mode` bit `pin mod 8` of the direction
register of the port of the pin (`IODIRA` for pins 0..7, `IODIRB` for pins 8..15) is 1
exactly when the mode is `INPUT` (so 0 for `OUTPUT`), each of the other seven
bits of that register has its prior value, and the register holds a byte. -/
theorem pinMode_sets_direction_bit (self : MCP23017_7Semi) (pin : pins) (mode : Nat)
    (w : TwoWire) (hack : ∀ n, w.ack n = true) (hmode : mode = INPUT ∨ mode = OUTPUT) :
    ((self.pinMode pin mode w).regs (if pin.toNat < 8 then IODIRA else IODIRB)).testBit
        (pin.toNat % 8) = decide (mode = INPUT) ∧
    (∀ j, j < 8 → j ≠ pin.toNat % 8 →
      ((self.pinMode pin mode w).regs (if pin.toNat < 8 then IODIRA else IODIRB)).testBit j =
      (w.regs (if pin.toNat < 8 then IODIRA else IODIRB)).testBit j) ∧
    (self.pinMode pin mode w).regs (if pin.toNat < 8 then IODIRA else IODIRB) < 256 := by
  have hp := pin.toNat_lt
  have hm : (mode % 256 = INPUT) ↔ (mode = INPUT) := by
    rcases hmode with rfl | rfl <;> decide
  by_cases h8 : pin.toNat < 8
  · have hb : pin.toNat % 8 = pin.toNat := Nat.mod_eq_of_lt h8
    have hr := (rmw_regs self IODIRA
      (fun x => if mode % 256 = INPUT then (x ||| (1 <<< pin.toNat)) % 256
        else x &&& compl8 (1 <<< pin.toNat)) w hack (by decide) (by decide)).1
    have hu := updBit_spec (mode % 256 = INPUT) (w.regs IODIRA) pin.toNat h8
    simp only [pinMode, h8, hb, if_true]
    rw [hr, setReg_same]
    simpa [hm] using hu
  · have hb : pin.toNat % 8 = pin.toNat - 8 := by omega
    have hb8 : pin.toNat - 8 < 8 := by omega
    have hr := (rmw_regs self IODIRB
      (fun x => if mode % 256 = INPUT then (x ||| (1 <<< (pin.toNat - 8))) % 256
        else x &&& compl8 (1 <<< (pin.toNat - 8))) w hack (by decide) (by decide)).1
    have hu := updBit_spec (mode % 256 = INPUT) (w.regs IODIRB) (pin.toNat - 8) hb8
    simp only [pinMode, h8, hb, if_false]
    rw [hr, setReg_same]
    simpa [hm] using hu

/-- Witness for C1: pin `GPB1` of the sample chip (direction register `0xF0`) is
made an input. -/
theorem pinMode_sets_direction_bit_witness :
    (∀ n, sampleBus.ack n = true) ∧ (INPUT = INPUT ∨ INPUT = OUTPUT) ∧
    ((sampleDriver.pinMode .GPB1 INPUT sampleBus).regs IODIRB).testBit 1 = true ∧
    (∀ j, j < 8 → j ≠ 1 →
      ((sampleDriver.pinMode .GPB1 INPUT sampleBus).regs IODIRB).testBit j =
      (sampleBus.regs IODIRB).testBit j) ∧
    (sampleDriver.pinMode .GPB1 INPUT sampleBus).regs IODIRB < 256 :=
  ⟨fun _ => rfl, Or.inl rfl,
    pinMode_sets_direction_bit sampleDriver .GPB1 INPUT sampleBus (fun _ => rfl) (Or.inl rfl)⟩

/-! ## Interrupt configuration -/

/-- Register file after `enableInterrupt` on an acknowledging bus: three
read-modify-write steps on the control, default-value and enable registers of
the port selected by `regs3`. -/
theorem enableInterrupt_regs (self : MCP23017_7Semi) (pin : pins) (c d : Bool) (w : TwoWire)
    (hack : ∀ n, w.ack n = true) :
    (self.enableInterrupt pin c d w).regs =
      if pin.toNat < 8 then
        setReg (setReg (setReg w.regs
          INTCONA ((if c then (w.regs INTCONA % 256 ||| (1 <<< pin.toNat)) % 256
                    else w.regs INTCONA % 256 &&& compl8 (1 <<< pin.toNat)) % 256))
          DEFVALA ((if d then (w.regs DEFVALA % 256 ||| (1 <<< pin.toNat)) % 256
                    else w.regs DEFVALA % 256 &&& compl8 (1 <<< pin.toNat)) % 256))
          INTEA ((w.regs INTEA % 256 ||| (1 <<< pin.toNat)) % 256 % 256)
      else
        setReg (setReg (setReg w.regs
          INTCONB ((if c then (w.regs INTCONB % 256 ||| (1 <<< (pin.toNat - 8))) % 256
                    else w.regs INTCONB % 256 &&& compl8 (1 <<< (pin.toNat - 8))) % 256))
          DEFVALB ((if d then (w.regs DEFVALB % 256 ||| (1 <<< (pin.toNat - 8))) % 256
                    else w.regs DEFVALB % 256 &&& compl8 (1 <<< (pin.toNat - 8))) % 256))
          INTEB ((w.regs INTEB % 256 ||| (1 <<< (pin.toNat - 8))) % 256 % 256) := by
  by_cases h8 : pin.toNat < 8
  · have h1 := rmw_regs self INTCONA
      (fun x => if c then (x ||| (1 <<< pin.toNat)) % 256 else x &&& compl8 (1 <<< pin.toNat))
      w hack (by decide) (by decide)
    have h2 := rmw_regs self DEFVALA
      (fun x => if d then (x ||| (1 <<< pin.toNat)) % 256 else x &&& compl8 (1 <<< pin.toNat))
      _ h1.2 (by decide) (by decide)
    have h3 := rmw_regs self INTEA (fun x => (x ||| (1 <<< pin.toNat)) % 256)
      _ h2.2 (by decide) (by decide)
    simp only [enableInterrupt, h8, if_true]
    rw [h3.1, h2.1, h1.1]
    simp [setReg, INTCONA, DEFVALA, INTEA]
  · have h1 := rmw_regs self INTCONB
      (fun x => if c then (x ||| (1 <<< (pin.toNat - 8))) % 256
        else x &&& compl8 (1 <<< (pin.toNat - 8)))
      w hack (by decide) (by decide)
    have h2 := rmw_regs self DEFVALB
      (fun x => if d then (x ||| (1 <<< (pin.toNat - 8))) % 256
        else x &&& compl8 (1 <<< (pin.toNat - 8)))
      _ h1.2 (by decide) (by decide)
    have h3 := rmw_regs self INTEB (fun x => (x ||| (1 <<< (pin.toNat - 8))) % 256)
      _ h2.2 (by decide) (by decide)
    simp only [enableInterrupt, h8, if_false]
    simp only [show ((1 : Nat) = 0) = False from by simp, if_false]
    rw [h3.1, h2.1, h1.1]
    simp [setReg, INTCONB, DEFVALB, INTEB]

/-- C2: for every pin, all booleans `compareToDefval` and `defval` and every prior
state of an acknowledging bus, after `enableInterrupt` bit `pin mod 8` of the
interrupt-control register of the port of the pin equals `compareToDefval`, the same
bit of the default-value register equals `defval`, the same bit of the
interrupt-enable register is 1, and each of the other seven bits of those three
registers has its prior value. -/
theorem enableInterrupt_sets_three_bits (self : MCP23017_7Semi) (pin : pins)
    (compareToDefval defval : Bool) (w : TwoWire) (hack : ∀ n, w.ack n = true) :
    ((self.enableInterrupt pin compareToDefval defval w).regs
        (if pin.toNat < 8 then INTCONA else INTCONB)).testBit (pin.toNat % 8) = compareToDefval ∧
    ((self.enableInterrupt pin compareToDefval defval w).regs
        (if pin.toNat < 8 then DEFVALA else DEFVALB)).testBit (pin.toNat % 8) = defval ∧
    ((self.enableInterrupt pin compareToDefval defval w).regs
        (if pin.toNat < 8 then INTEA else INTEB)).testBit (pin.toNat % 8) = true ∧
    ∀ j, j < 8 → j ≠ pin.toNat % 8 →
      ((self.enableInterrupt pin compareToDefval defval w).regs
          (if pin.toNat < 8 then INTCONA else INTCONB)).testBit j =
        (w.regs (if pin.toNat < 8 then INTCONA else INTCONB)).testBit j ∧
      ((self.enableInterrupt pin compareToDefval defval w).regs
          (if pin.toNat < 8 then DEFVALA else DEFVALB)).testBit j =
        (w.regs (if pin.toNat < 8 then DEFVALA else DEFVALB)).testBit j ∧
      ((self.enableInterrupt pin compareToDefval defval w).regs
          (if pin.toNat < 8 then INTEA else INTEB)).testBit j =
        (w.regs (if pin.toNat < 8 then INTEA else INTEB)).testBit j := by
  have hp := pin.toNat_lt
  rw [enableInterrupt_regs self pin compareToDefval defval w hack]
  by_cases h8 : pin.toNat < 8
  · have hb : pin.toNat % 8 = pin.toNat := Nat.mod_eq_of_lt h8
    have u1 := updBit_spec (compareToDefval = true) (w.regs INTCONA) pin.toNat h8
    have u2 := updBit_spec (defval = true) (w.regs DEFVALA) pin.toNat h8
    have u3 := updBit_spec True (w.regs INTEA) pin.toNat h8
    simp only [if_true] at u3
    simp only [h8, hb, if_true]
    have e1 : ∀ a b c : Nat, setReg (setReg (setReg w.regs INTCONA a) DEFVALA b) INTEA c INTCONA = a := by
      intro a b c; simp [setReg, INTCONA, DEFVALA, INTEA]
    have e2 : ∀ a b c : Nat, setReg (setReg (setReg w.regs INTCONA a) DEFVALA b) INTEA c DEFVALA = b := by
      intro a b c; simp [setReg, INTCONA, DEFVALA, INTEA]
    have e3 : ∀ a b c : Nat, setReg (setReg (setReg w.regs INTCONA a) DEFVALA b) INTEA c INTEA = c := by
      intro a b c; simp [setReg]
    rw [e1, e2, e3]
    refine ⟨by simpa using u1.1, by simpa using u2.1, by simpa using u3.1, fun j hj hne => ?_⟩
    exact ⟨u1.2.1 j hj hne, u2.2.1 j hj hne, u3.2.1 j hj hne⟩
  · have hb : pin.toNat % 8 = pin.toNat - 8 := by omega
    have hb8 : pin.toNat - 8 < 8 := by omega
    have u1 := updBit_spec (compareToDefval = true) (w.regs INTCONB) (pin.toNat - 8) hb8
    have u2 := updBit_spec (defval = true) (w.regs DEFVALB) (pin.toNat - 8) hb8
    have u3 := updBit_spec True (w.regs INTEB) (pin.toNat - 8) hb8
    simp only [if_true] at u3
    simp only [h8, hb, if_false]
    have e1 : ∀ a b c : Nat, setReg (setReg (setReg w.regs INTCONB a) DEFVALB b) INTEB c INTCONB = a := by
      intro a b c; simp [setReg, INTCONB, DEFVALB, INTEB]
    have e2 : ∀ a b c : Nat, setReg (setReg (setReg w.regs INTCONB a) DEFVALB b) INTEB c DEFVALB = b := by
      intro a b c; simp [setReg, INTCONB, DEFVALB, INTEB]
    have e3 : ∀ a b c : Nat, setReg (setReg (setReg w.regs INTCONB a) DEFVALB b) INTEB c INTEB = c := by
      intro a b c; simp [setReg]
    rw [e1, e2, e3]
    refine ⟨by simpa using u1.1, by simpa using u2.1, by simpa using u3.1, fun j hj hne => ?_⟩
    exact ⟨u1.2.1 j hj hne, u2.2.1 j hj hne, u3.2.1 j hj hne⟩

/-- Witness for C2: `enableInterrupt(GPB1, true, true)` on the sample chip. -/
theorem enableInterrupt_sets_three_bits_witness :
    (∀ n, sampleBus.ack n = true) ∧
    ((sampleDriver.enableInterrupt .GPB1 true true sampleBus).regs INTCONB).testBit 1 = true ∧
    ((sampleDriver.enableInterrupt .GPB1 true true sampleBus).regs DEFVALB).testBit 1 = true ∧
    ((sampleDriver.enableInterrupt .GPB1 true true sampleBus).regs INTEB).testBit 1 = true ∧
    ∀ j, j < 8 → j ≠ 1 →
      ((sampleDriver.enableInterrupt .GPB1 true true sampleBus).regs INTCONB).testBit j =
        (sampleBus.regs INTCONB).testBit j ∧
      ((sampleDriver.enableInterrupt .GPB1 true true sampleBus).regs DEFVALB).testBit j =
        (sampleBus.regs DEFVALB).testBit j ∧
      ((sampleDriver.enableInterrupt .GPB1 true true sampleBus).regs INTEB).testBit j =
        (sampleBus.regs INTEB).testBit j :=
  ⟨fun _ => rfl,
    enableInterrupt_sets_three_bits sampleDriver .GPB1 true true sampleBus (fun _ => rfl)⟩

/-- A register read changes no register other than the two flag registers,
whatever the bus acknowledges. -/
theorem readReg_regs_frame (self : MCP23017_7Semi) (reg : Nat) (w : TwoWire) (a : Nat)
    (hA : a ≠ INTFA) (hB : a ≠ INTFB) : (self.readReg reg w).2.regs a = w.regs a := by
  simp only [readReg, TwoWire.beginTransmission, TwoWire.write, TwoWire.endTransmission,
    TwoWire.requestFrom, TwoWire.read]
  cases h1 : w.ack w.log.length <;> cases h2 : w.ack (w.log.length + 1) <;>
    simp [h1, h2, TwoWire.deviceWrite, TwoWire.deviceRead] <;>
    split_ifs <;> simp [setReg, hA, hB]

/-- A register write changes no register other than its target and the level
register that mirrors a latch, whatever the bus acknowledges. -/
theorem writeReg_regs_frame (self : MCP23017_7Semi) (reg v : Nat) (w : TwoWire) (a : Nat)
    (hr : a ≠ reg % 256) (hA : a ≠ GPIOA) (hB : a ≠ GPIOB) :
    (self.writeReg reg v w).2.regs a = w.regs a := by
  simp only [writeReg, TwoWire.beginTransmission, TwoWire.write, TwoWire.endTransmission]
  cases h1 : w.ack w.log.length
  · simp [h1]
  · simp only [h1, TwoWire.deviceWrite, List.nil_append, List.singleton_append, if_true]
    split_ifs <;> simp_all [setReg]

/-- C3: for every pin and every prior state, `disableInterrupt` leaves the
interrupt-control and default-value registers of both ports exactly as they
were (whatever the bus acknowledges); on an acknowledging bus it clears bit
`pin mod 8` of the interrupt-enable register of the port of the pin and keeps each of
the other seven bits of that register. -/
theorem disableInterrupt_clears_enable_only (self : MCP23017_7Semi) (pin : pins) (w : TwoWire) :
    ((∀ n, w.ack n = true) →
      ((self.disableInterrupt pin w).regs (if pin.toNat < 8 then INTEA else INTEB)).testBit
          (pin.toNat % 8) = false ∧
      ∀ j, j < 8 → j ≠ pin.toNat % 8 →
        ((self.disableInterrupt pin w).regs (if pin.toNat < 8 then INTEA else INTEB)).testBit j =
          (w.regs (if pin.toNat < 8 then INTEA else INTEB)).testBit j) ∧
    (self.disableInterrupt pin w).regs INTCONA = w.regs INTCONA ∧
    (self.disableInterrupt pin w).regs INTCONB = w.regs INTCONB ∧
    (self.disableInterrupt pin w).regs DEFVALA = w.regs DEFVALA ∧
    (self.disableInterrupt pin w).regs DEFVALB = w.regs DEFVALB := by
  have hp := pin.toNat_lt
  have frame : ∀ a, a ≠ INTEA → a ≠ INTEB → a ≠ GPIOA → a ≠ GPIOB → a ≠ INTFA → a ≠ INTFB →
      (self.disableInterrupt pin w).regs a = w.regs a := by
    intro a h1 h2 h3 h4 h5 h6
    by_cases h8 : pin.toNat < 8
    · simp only [disableInterrupt, h8, if_true]
      rw [writeReg_regs_frame self INTEA _ _ a h1 h3 h4, readReg_regs_frame self INTEA w a h5 h6]
    · simp only [disableInterrupt, h8, if_false]
      rw [writeReg_regs_frame self INTEB _ _ a h2 h3 h4, readReg_regs_frame self INTEB w a h5 h6]
  refine ⟨fun hack => ?_, frame _ (by decide) (by decide) (by decide) (by decide) (by decide)
    (by decide), frame _ (by decide) (by decide) (by decide) (by decide) (by decide) (by decide),
    frame _ (by decide) (by decide) (by decide) (by decide) (by decide) (by decide),
    frame _ (by decide) (by decide) (by decide) (by decide) (by decide) (by decide)⟩
  by_cases h8 : pin.toNat < 8
  · have hb : pin.toNat % 8 = pin.toNat := Nat.mod_eq_of_lt h8
    have hr := (rmw_regs self INTEA (fun x => x &&& compl8 (1 <<< pin.toNat)) w hack
      (by decide) (by decide)).1
    have hu := updBit_spec False (w.regs INTEA) pin.toNat h8
    simp only [if_false] at hu
    simp only [disableInterrupt, h8, hb, if_true]
    rw [hr, setReg_same]
    exact ⟨by simpa using hu.1, hu.2.1⟩
  · have hb : pin.toNat % 8 = pin.toNat - 8 := by omega
    have hb8 : pin.toNat - 8 < 8 := by omega
    have hr := (rmw_regs self INTEB (fun x => x &&& compl8 (1 <<< (pin.toNat - 8))) w hack
      (by decide) (by decide)).1
    have hu := updBit_spec False (w.regs INTEB) (pin.toNat - 8) hb8
    simp only [if_false] at hu
    simp only [disableInterrupt, h8, hb, if_false]
    rw [hr, setReg_same]
    exact ⟨by simpa using hu.1, hu.2.1⟩

/-- Witness for C3: `disableInterrupt(GPB3)` on the sample chip, whose port-B
enable register holds `0x2C`. -/
theorem disableInterrupt_clears_enable_only_witness :
    ((∀ n, sampleBus.ack n = true) ∧
      ((sampleDriver.disableInterrupt .GPB3 sampleBus).regs INTEB).testBit 3 = false ∧
      ∀ j, j < 8 → j ≠ 3 →
        ((sampleDriver.disableInterrupt .GPB3 sampleBus).regs INTEB).testBit j =
          (sampleBus.regs INTEB).testBit j) ∧
    (sampleDriver.disableInterrupt .GPB3 sampleBus).regs INTCONA = sampleBus.regs INTCONA ∧
    (sampleDriver.disableInterrupt .GPB3 sampleBus).regs INTCONB = sampleBus.regs INTCONB ∧
    (sampleDriver.disableInterrupt .GPB3 sampleBus).regs DEFVALA = sampleBus.regs DEFVALA ∧
    (sampleDriver.disableInterrupt .GPB3 sampleBus).regs DEFVALB = sampleBus.regs DEFVALB :=
  ⟨⟨fun _ => rfl,
      (disableInterrupt_clears_enable_only sampleDriver .GPB3 sampleBus).1 (fun _ => rfl)⟩,
    (disableInterrupt_clears_enable_only sampleDriver .GPB3 sampleBus).2⟩

/-! ## Start-up -/

/-- The state a register write leaves behind when the transaction is acknowledged. -/
theorem writeReg_of_ack (self : MCP23017_7Semi) (reg v : Nat) (w : TwoWire)
    (h : w.ack w.log.length = true) :
    self.writeReg reg v w = (true,
      { TwoWire.deviceWrite w [reg % 256, v % 256] with
        txAddress := self._address % 256, txBuffer := [],
        log := w.log ++ [Txn.write (self._address % 256) [reg % 256, v % 256] true] }) := by
  simp [writeReg, TwoWire.beginTransmission, TwoWire.write, TwoWire.endTransmission, h,
    TwoWire.deviceWrite]

/-- The state a register write leaves behind when the transaction is not acknowledged. -/
theorem writeReg_of_nack (self : MCP23017_7Semi) (reg v : Nat) (w : TwoWire)
    (h : w.ack w.log.length = false) :
    self.writeReg reg v w = (false,
      { w with
        txAddress := self._address % 256, txBuffer := [],
        log := w.log ++ [Txn.write (self._address % 256) [reg % 256, v % 256] false] }) := by
  simp [writeReg, TwoWire.beginTransmission, TwoWire.write, TwoWire.endTransmission, h]

/-- C4: when the device does not acknowledge the probe, `begin` returns false,
the register file is the one before the call, and the probe is the only
transaction on the bus (no register write is issued). -/
theorem begin_probe_nack (self : MCP23017_7Semi) (w : TwoWire)
    (hnack : w.ack w.log.length = false) :
    (self.begin w).1 = false ∧ (self.begin w).2.regs = w.regs ∧
    (self.begin w).2.log = w.log ++ [Txn.write (self._address % 256) [] false] := by
  simp [begin, TwoWire.begin, TwoWire.beginTransmission, TwoWire.endTransmission, hnack]

/-- Witness for C4: no device answers on the bus. -/
theorem begin_probe_nack_witness :
    absentBus.ack absentBus.log.length = false ∧
    (sampleDriver.begin absentBus).1 = false ∧
    (sampleDriver.begin absentBus).2.regs = absentBus.regs ∧
    (sampleDriver.begin absentBus).2.log =
      absentBus.log ++ [Txn.write (sampleDriver._address % 256) [] false] :=
  ⟨rfl, begin_probe_nack sampleDriver absentBus rfl⟩

/-- C5: `begin` returns true exactly when the probe and the four register writes
(direction A, direction B, pull-up A, pull-up B) are all acknowledged, and then
the bus has seen exactly these five transactions; when transaction number `k`
of the five is the first one not acknowledged, the bus has seen the `k`
acknowledged ones and the failed one and nothing after it. -/
theorem begin_true_iff_all_acked (self : MCP23017_7Semi) (w : TwoWire) :
    ((self.begin w).1 = true ↔
      (w.ack w.log.length = true ∧ w.ack (w.log.length + 1) = true ∧
       w.ack (w.log.length + 2) = true ∧ w.ack (w.log.length + 3) = true ∧
       w.ack (w.log.length + 4) = true)) ∧
    ((self.begin w).1 = true →
      (self.begin w).2.log =
        w.log ++ beginPayloads.map (fun p => Txn.write (self._address % 256) p true)) ∧
    (∀ k, k < 5 → (∀ i, i < k → w.ack (w.log.length + i) = true) →
      w.ack (w.log.length + k) = false →
      (self.begin w).2.log =
        w.log ++ (beginPayloads.take k).map (fun p => Txn.write (self._address % 256) p true)
          ++ [Txn.write (self._address % 256) (beginPayloads.getD k []) false]) := by
  refine ⟨?_, ?_, ?_⟩
  · cases h0 : w.ack w.log.length <;> cases h1 : w.ack (w.log.length + 1) <;>
    cases h2 : w.ack (w.log.length + 2) <;> cases h3 : w.ack (w.log.length + 3) <;>
    cases h4 : w.ack (w.log.length + 4) <;>
      simp [begin, TwoWire.begin, TwoWire.beginTransmission, TwoWire.endTransmission,
        TwoWire.deviceWrite, writeReg_of_ack, writeReg_of_nack, h0, h1, h2, h3, h4]
  · cases h0 : w.ack w.log.length <;> cases h1 : w.ack (w.log.length + 1) <;>
    cases h2 : w.ack (w.log.length + 2) <;> cases h3 : w.ack (w.log.length + 3) <;>
    cases h4 : w.ack (w.log.length + 4) <;>
      simp [begin, TwoWire.begin, TwoWire.beginTransmission, TwoWire.endTransmission,
        TwoWire.deviceWrite, writeReg_of_ack, writeReg_of_nack, h0, h1, h2, h3, h4,
        beginPayloads, IODIRA, IODIRB, GPPUA, GPPUB]
  · intro k hk hpre hfail
    interval_cases k
    · have h0 : w.ack w.log.length = false := by simpa using hfail
      simp [begin, TwoWire.begin, TwoWire.beginTransmission, TwoWire.endTransmission, h0,
        beginPayloads]
    · have h0 : w.ack w.log.length = true := by simpa using hpre 0 (by norm_num)
      simp [begin, TwoWire.begin, TwoWire.beginTransmission, TwoWire.endTransmission,
        TwoWire.deviceWrite, writeReg_of_ack, writeReg_of_nack, h0, hfail,
        beginPayloads, IODIRA, IODIRB, GPPUA, GPPUB]
    · have h0 : w.ack w.log.length = true := by simpa using hpre 0 (by norm_num)
      have h1 := hpre 1 (by norm_num)
      simp [begin, TwoWire.begin, TwoWire.beginTransmission, TwoWire.endTransmission,
        TwoWire.deviceWrite, writeReg_of_ack, writeReg_of_nack, h0, h1, hfail,
        beginPayloads, IODIRA, IODIRB, GPPUA, GPPUB]
    · have h0 : w.ack w.log.length = true := by simpa using hpre 0 (by norm_num)
      have h1 := hpre 1 (by norm_num)
      have h2 := hpre 2 (by norm_num)
      simp [begin, TwoWire.begin, TwoWire.beginTransmission, TwoWire.endTransmission,
        TwoWire.deviceWrite, writeReg_of_ack, writeReg_of_nack, h0, h1, h2, hfail,
        beginPayloads, IODIRA, IODIRB, GPPUA, GPPUB]
    · have h0 : w.ack w.log.length = true := by simpa using hpre 0 (by norm_num)
      have h1 := hpre 1 (by norm_num)
      have h2 := hpre 2 (by norm_num)
      have h3 := hpre 3 (by norm_num)
      simp [begin, TwoWire.begin, TwoWire.beginTransmission, TwoWire.endTransmission,
        TwoWire.deviceWrite, writeReg_of_ack, writeReg_of_nack, h0, h1, h2, h3, hfail,
        beginPayloads, IODIRA, IODIRB, GPPUA, GPPUB]

/-- Witness for C5: on the sample chip all five transactions are acknowledged;
on the chip that fails transaction number 2 (the direction-B write) `begin`
returns false and stops there. -/
theorem begin_true_iff_all_acked_witness :
    (sampleDriver.begin sampleBus).1 = true ∧
    (sampleDriver.begin sampleBus).2.log =
      [Txn.write 0x20 [] true, Txn.write 0x20 [IODIRA, 0] true, Txn.write 0x20 [IODIRB, 0] true,
       Txn.write 0x20 [GPPUA, 0] true, Txn.write 0x20 [GPPUB, 0] true] ∧
    (sampleDriver.begin (flakyBus 2)).1 ≠ true ∧
    (sampleDriver.begin (flakyBus 2)).2.log =
      [Txn.write 0x20 [] true, Txn.write 0x20 [IODIRA, 0] true, Txn.write 0x20 [IODIRB, 0] false] :=
  ⟨(begin_true_iff_all_acked sampleDriver sampleBus).1.2 ⟨rfl, rfl, rfl, rfl, rfl⟩,
    (begin_true_iff_all_acked sampleDriver sampleBus).2.1
      ((begin_true_iff_all_acked sampleDriver sampleBus).1.2 ⟨rfl, rfl, rfl, rfl, rfl⟩),
    fun h => Bool.noConfusion
      ((begin_true_iff_all_acked sampleDriver (flakyBus 2)).1.1 h).2.2.1,
    (begin_true_iff_all_acked sampleDriver (flakyBus 2)).2.2 2 (by decide) (by decide) rfl⟩

/-- C6: for every prior state, whenever `begin` returns true the direction and
pull-up registers of both ports hold `0x00` and every other register holds its
prior value. -/
theorem begin_success_registers (self : MCP23017_7Semi) (w : TwoWire)
    (hok : (self.begin w).1 = true) :
    (self.begin w).2.regs IODIRA = 0x00 ∧ (self.begin w).2.regs IODIRB = 0x00 ∧
    (self.begin w).2.regs GPPUA = 0x00 ∧ (self.begin w).2.regs GPPUB = 0x00 ∧
    ∀ a, a ≠ IODIRA → a ≠ IODIRB → a ≠ GPPUA → a ≠ GPPUB →
      (self.begin w).2.regs a = w.regs a := by
  revert hok
  cases h0 : w.ack w.log.length <;> cases h1 : w.ack (w.log.length + 1) <;>
  cases h2 : w.ack (w.log.length + 2) <;> cases h3 : w.ack (w.log.length + 3) <;>
  cases h4 : w.ack (w.log.length + 4) <;>
    simp [begin, TwoWire.begin, TwoWire.beginTransmission, TwoWire.endTransmission,
      TwoWire.deviceWrite, writeReg_of_ack, writeReg_of_nack, h0, h1, h2, h3, h4,
      IODIRA, IODIRB, GPPUA, GPPUB, OLATA, OLATB, setReg]
  intro a ha hb hc hd
  simp [ha, hb, hc, hd]

/-- Witness for C6: `begin` on the sample chip, whose direction register of port
B held `0xF0`. -/
theorem begin_success_registers_witness :
    (sampleDriver.begin sampleBus).1 = true ∧
    (sampleDriver.begin sampleBus).2.regs IODIRA = 0x00 ∧
    (sampleDriver.begin sampleBus).2.regs IODIRB = 0x00 ∧
    (sampleDriver.begin sampleBus).2.regs GPPUA = 0x00 ∧
    (sampleDriver.begin sampleBus).2.regs GPPUB = 0x00 ∧
    ∀ a, a ≠ IODIRA → a ≠ IODIRB → a ≠ GPPUA → a ≠ GPPUB →
      (sampleDriver.begin sampleBus).2.regs a = sampleBus.regs a :=
  ⟨by decide, begin_success_registers sampleDriver sampleBus (by decide)⟩

/-! ## Digital input and output -/

theorem mask_ne_zero_iff (x b : Nat) : x &&& (1 <<< b) ≠ 0 ↔ x.testBit b = true := by
  rw [Nat.one_shiftLeft, Nat.and_two_pow]
  cases h : x.testBit b <;> simp [Nat.pos_iff_ne_zero.mp (Nat.two_pow_pos b)]

theorem testBit_compl8 (m j : Nat) :
    (compl8 m).testBit j = (decide (j < 8) && !m.testBit j) := by
  simp only [compl8, Nat.testBit_xor, testBit_255, testBit_mod256]
  by_cases hj : j < 8 <;> cases m.testBit j <;> simp [hj]

/-- Bit `b` of the level register of a loopback port after a latch write of `v`:
an input pin keeps its level, an output pin shows the latch bit. -/
theorem testBit_loopback (g iodir v b : Nat) (hb : b < 8) :
    ((g % 256 &&& iodir) ||| (v &&& compl8 iodir)).testBit b =
      ((g.testBit b && iodir.testBit b) || (v.testBit b && !iodir.testBit b)) := by
  simp only [Nat.testBit_or, Nat.testBit_and, testBit_compl8, testBit_mod256]
  simp [hb]

theorem readReg_ack (self : MCP23017_7Semi) (reg : Nat) (w : TwoWire) :
    (self.readReg reg w).2.ack = w.ack ∧ (self.readReg reg w).2.loopback = w.loopback ∧
    (self.readReg reg w).2.readClears = w.readClears := by
  simp only [readReg, TwoWire.beginTransmission, TwoWire.write, TwoWire.endTransmission,
    TwoWire.requestFrom, TwoWire.read]
  cases h1 : w.ack w.log.length <;> cases h2 : w.ack (w.log.length + 1) <;>
    simp [h1, h2, TwoWire.deviceWrite, TwoWire.deviceRead]

theorem writeReg_ack (self : MCP23017_7Semi) (reg v : Nat) (w : TwoWire) :
    (self.writeReg reg v w).2.ack = w.ack ∧ (self.writeReg reg v w).2.loopback = w.loopback ∧
    (self.writeReg reg v w).2.readClears = w.readClears := by
  simp only [writeReg, TwoWire.beginTransmission, TwoWire.write, TwoWire.endTransmission]
  cases h1 : w.ack w.log.length <;> simp [h1, TwoWire.deviceWrite]

/-- Level read by `readPin` on an acknowledging bus, and what the read leaves
in place. -/
theorem readPin_spec (self : MCP23017_7Semi) (pin : pins) (w : TwoWire)
    (hack : ∀ n, w.ack n = true) :
    (self.readPin pin w).1 =
      (if (w.regs (if pin.toNat < 8 then GPIOA else GPIOB)).testBit (pin.toNat % 8)
        then HIGH else LOW) ∧
    (self.readPin pin w).2.ack = w.ack ∧ (self.readPin pin w).2.loopback = w.loopback ∧
    ∀ a, a ≠ INTFA → a ≠ INTFB → (self.readPin pin w).2.regs a = w.regs a := by
  have hp := pin.toNat_lt
  by_cases h8 : pin.toNat < 8
  · have hb : pin.toNat % 8 = pin.toNat := Nat.mod_eq_of_lt h8
    simp only [readPin, h8, hb, if_true]
    refine ⟨?_, (readReg_ack self GPIOA w).1, (readReg_ack self GPIOA w).2.1,
      fun a hA hB => readReg_regs_frame self GPIOA w a hA hB⟩
    rw [readReg_fst self GPIOA w hack]
    simp only [mask_ne_zero_iff, show GPIOA % 256 = GPIOA from by decide,
      testBit_mod256_lt _ _ h8]
  · have hb : pin.toNat % 8 = pin.toNat - 8 := by omega
    have hb8 : pin.toNat - 8 < 8 := by omega
    simp only [readPin, h8, hb, if_false]
    refine ⟨?_, (readReg_ack self GPIOB w).1, (readReg_ack self GPIOB w).2.1,
      fun a hA hB => readReg_regs_frame self GPIOB w a hA hB⟩
    rw [readReg_fst self GPIOB w hack]
    simp only [mask_ne_zero_iff, show GPIOB % 256 = GPIOB from by decide,
      testBit_mod256_lt _ _ hb8]

/-- What `digitalWrite` does on an acknowledging bus: the three transactions it
issues and the level and direction registers of the port of the pin afterwards. -/
theorem digitalWrite_spec (self : MCP23017_7Semi) (pin : pins) (value : Bool) (w : TwoWire)
    (hack : ∀ n, w.ack n = true) :
    (self.digitalWrite pin value w).ack = w.ack ∧
    (self.digitalWrite pin value w).loopback = w.loopback ∧
    (self.digitalWrite pin value w).regs (if pin.toNat < 8 then IODIRA else IODIRB) =
      w.regs (if pin.toNat < 8 then IODIRA else IODIRB) ∧
    (self.digitalWrite pin value w).regs (if pin.toNat < 8 then GPIOA else GPIOB) =
      (if w.loopback then
        (w.regs (if pin.toNat < 8 then GPIOA else GPIOB) % 256 &&&
            w.regs (if pin.toNat < 8 then IODIRA else IODIRB)) |||
          ((if value.toNat = HIGH then
              (w.regs (if pin.toNat < 8 then GPIOA else GPIOB) % 256 |||
                (1 <<< (pin.toNat % 8))) % 256
            else w.regs (if pin.toNat < 8 then GPIOA else GPIOB) % 256 &&&
                compl8 (1 <<< (pin.toNat % 8))) % 256 &&&
            compl8 (w.regs (if pin.toNat < 8 then IODIRA else IODIRB)))
       else w.regs (if pin.toNat < 8 then GPIOA else GPIOB)) ∧
    (self.digitalWrite pin value w).log =
      w.log ++
        [Txn.write (self._address % 256) [if pin.toNat < 8 then GPIOA else GPIOB] true,
         Txn.read (self._address % 256) 1 true,
         Txn.write (self._address % 256)
           [if pin.toNat < 8 then OLATA else OLATB,
            (if value.toNat = HIGH then
              (w.regs (if pin.toNat < 8 then GPIOA else GPIOB) % 256 |||
                (1 <<< (pin.toNat % 8))) % 256
            else w.regs (if pin.toNat < 8 then GPIOA else GPIOB) % 256 &&&
                compl8 (1 <<< (pin.toNat % 8))) % 256] true] := by
  have hp := pin.toNat_lt
  by_cases h8 : pin.toNat < 8
  · have hb : pin.toNat % 8 = pin.toNat := Nat.mod_eq_of_lt h8
    simp only [digitalWrite, h8, hb, if_true]
    cases hl : w.loopback <;> cases hc : w.readClears <;>
      simp [readReg_fst, readReg_snd, writeReg_snd, hack, TwoWire.deviceRead,
        TwoWire.deviceWrite, setReg, hl, hc, IODIRA, GPIOA, OLATA, OLATB, INTCAPA, INTCAPB,
        GPIOB, INTFA, INTFB]
  · have hb : pin.toNat % 8 = pin.toNat - 8 := by omega
    simp only [digitalWrite, h8, hb, if_false]
    cases hl : w.loopback <;> cases hc : w.readClears <;>
      simp [readReg_fst, readReg_snd, writeReg_snd, hack, TwoWire.deviceRead,
        TwoWire.deviceWrite, setReg, hl, hc, IODIRB, GPIOA, OLATA, OLATB, INTCAPA, INTCAPB,
        GPIOB, INTFA, INTFB]

theorem pins.toNat_mod_lt (pin : pins) : pin.toNat % 8 < 8 := Nat.mod_lt _ (by norm_num)

/-- Level read back after a write, on a loopback port with the pin an output. -/
theorem digitalRead_digitalWrite (self : MCP23017_7Semi) (pin : pins) (value : Bool)
    (w : TwoWire) (hack : ∀ n, w.ack n = true) (hloop : w.loopback = true)
    (hout : (w.regs (if pin.toNat < 8 then IODIRA else IODIRB)).testBit (pin.toNat % 8) = false) :
    (self.digitalRead pin (self.digitalWrite pin value w)).1 = if value then HIGH else LOW := by
  obtain ⟨ha, _, _, hg, _⟩ := digitalWrite_spec self pin value w hack
  have hack1 : ∀ n, (self.digitalWrite pin value w).ack n = true := by rw [ha]; exact hack
  have hu := (updBit_spec (value.toNat = HIGH) (w.regs (if pin.toNat < 8 then GPIOA else GPIOB))
    (pin.toNat % 8) pin.toNat_mod_lt).1
  have hv : decide (value.toNat = HIGH) = value := by cases value <;> decide
  rw [digitalRead, (readPin_spec self pin _ hack1).1, hg, hloop, if_pos rfl,
    testBit_loopback _ _ _ _ pin.toNat_mod_lt, hout, hu, hv]
  cases value <;> simp

/-- C7: on an acknowledging simulated port whose level register reflects the
output latch, with the pin configured as an output (direction bit 0), for every
pin `digitalWrite(pin, true)` followed by `digitalRead(pin)` returns `HIGH`, and
`digitalWrite(pin, false)` followed by `digitalRead(pin)` returns `LOW`. -/
theorem digitalWrite_then_digitalRead (self : MCP23017_7Semi) (pin : pins) (w : TwoWire)
    (hack : ∀ n, w.ack n = true) (hloop : w.loopback = true)
    (hout : (w.regs (if pin.toNat < 8 then IODIRA else IODIRB)).testBit (pin.toNat % 8) = false) :
    (self.digitalRead pin (self.digitalWrite pin true w)).1 = HIGH ∧
    (self.digitalRead pin (self.digitalWrite pin false w)).1 = LOW :=
  ⟨by simpa using digitalRead_digitalWrite self pin true w hack hloop hout,
   by simpa using digitalRead_digitalWrite self pin false w hack hloop hout⟩

/-- Witness for C7: pin `GPB2` of the sample chip is an output (direction `0xF0`)
and reads low (level `0xC3`) before the write. -/
theorem digitalWrite_then_digitalRead_witness :
    (∀ n, sampleBus.ack n = true) ∧ sampleBus.loopback = true ∧
    (sampleBus.regs IODIRB).testBit 2 = false ∧
    (sampleDriver.digitalRead .GPB2 sampleBus).1 = LOW ∧
    (sampleDriver.digitalRead .GPB2 (sampleDriver.digitalWrite .GPB2 true sampleBus)).1 = HIGH ∧
    (sampleDriver.digitalRead .GPB2 (sampleDriver.digitalWrite .GPB2 false sampleBus)).1 = LOW :=
  ⟨fun _ => rfl, rfl, by decide, by decide,
    digitalWrite_then_digitalRead sampleDriver .GPB2 sampleBus (fun _ => rfl) rfl (by decide)⟩

/-- Effect of one `togglePin` on an acknowledging bus: on a loopback port the
level bit of an output pin is inverted and that of an input pin is kept; without
loopback the level register is not affected. -/
theorem togglePin_spec (self : MCP23017_7Semi) (pin : pins) (w : TwoWire)
    (hack : ∀ n, w.ack n = true) :
    (self.togglePin pin w).ack = w.ack ∧
    (self.togglePin pin w).loopback = w.loopback ∧
    (self.togglePin pin w).regs (if pin.toNat < 8 then IODIRA else IODIRB) =
      w.regs (if pin.toNat < 8 then IODIRA else IODIRB) ∧
    ((self.togglePin pin w).regs (if pin.toNat < 8 then GPIOA else GPIOB)).testBit
        (pin.toNat % 8) =
      (if w.loopback then
        ((w.regs (if pin.toNat < 8 then GPIOA else GPIOB)).testBit (pin.toNat % 8) &&
            (w.regs (if pin.toNat < 8 then IODIRA else IODIRB)).testBit (pin.toNat % 8)) ||
          (!(w.regs (if pin.toNat < 8 then GPIOA else GPIOB)).testBit (pin.toNat % 8) &&
            !(w.regs (if pin.toNat < 8 then IODIRA else IODIRB)).testBit (pin.toNat % 8))
       else (w.regs (if pin.toNat < 8 then GPIOA else GPIOB)).testBit (pin.toNat % 8)) := by
  obtain ⟨r1, r2, r3, r4⟩ := readPin_spec self pin w hack
  have hack1 : ∀ n, (self.readPin pin w).2.ack n = true := by rw [r2]; exact hack
  have hG : (self.readPin pin w).2.regs (if pin.toNat < 8 then GPIOA else GPIOB) =
      w.regs (if pin.toNat < 8 then GPIOA else GPIOB) := by
    apply r4 <;> split <;> decide
  have hD : (self.readPin pin w).2.regs (if pin.toNat < 8 then IODIRA else IODIRB) =
      w.regs (if pin.toNat < 8 then IODIRA else IODIRB) := by
    apply r4 <;> split <;> decide
  obtain ⟨d1, d2, d3, d4, _⟩ := digitalWrite_spec self pin
    (decide ((if (self.readPin pin w).1 = HIGH then LOW else HIGH) ≠ 0)) (self.readPin pin w).2 hack1
  simp only [togglePin, digitalRead]
  refine ⟨d1.trans r2, d2.trans r3, d3.trans hD, ?_⟩
  rw [d4, r3, hG, hD]
  cases hl : w.loopback
  · simp
  · have hu := (updBit_spec
      ((decide ((if (self.readPin pin w).1 = HIGH then LOW else HIGH) ≠ 0)).toNat = HIGH)
      (w.regs (if pin.toNat < 8 then GPIOA else GPIOB)) (pin.toNat % 8) pin.toNat_mod_lt).1
    rw [if_pos rfl, if_pos rfl, testBit_loopback _ _ _ _ pin.toNat_mod_lt, hu, r1]
    cases (w.regs (if pin.toNat < 8 then GPIOA else GPIOB)).testBit (pin.toNat % 8) <;>
      cases (w.regs (if pin.toNat < 8 then IODIRA else IODIRB)).testBit (pin.toNat % 8) <;>
      simp [HIGH, LOW]

/-- C8: for every pin, on an acknowledging simulated port whose level register
reflects the output latch, `togglePin` called twice returns the pin to its
original logical level: `readPin` after the two calls equals `readPin` before
them. -/
theorem togglePin_twice (self : MCP23017_7Semi) (pin : pins) (w : TwoWire)
    (hack : ∀ n, w.ack n = true) (hloop : w.loopback = true) :
    (self.readPin pin (self.togglePin pin (self.togglePin pin w))).1 =
      (self.readPin pin w).1 := by
  obtain ⟨a1, l1, d1, g1⟩ := togglePin_spec self pin w hack
  have hack1 : ∀ n, (self.togglePin pin w).ack n = true := by rw [a1]; exact hack
  obtain ⟨a2, _, _, g2⟩ := togglePin_spec self pin (self.togglePin pin w) hack1
  have hack2 : ∀ n, (self.togglePin pin (self.togglePin pin w)).ack n = true := by
    rw [a2]; exact hack1
  rw [(readPin_spec self pin _ hack2).1, (readPin_spec self pin w hack).1, g2, l1, d1, g1, hloop]
  cases (w.regs (if pin.toNat < 8 then GPIOA else GPIOB)).testBit (pin.toNat % 8) <;>
    cases (w.regs (if pin.toNat < 8 then IODIRA else IODIRB)).testBit (pin.toNat % 8) <;>
    simp

/-- Witness for C8: output pin `GPA3` of the sample chip reads high, low after
one `togglePin`, and high again after the second. -/
theorem togglePin_twice_witness :
    (∀ n, sampleBus.ack n = true) ∧ sampleBus.loopback = true ∧
    (sampleDriver.readPin .GPA3 sampleBus).1 = HIGH ∧
    (sampleDriver.readPin .GPA3 (sampleDriver.togglePin .GPA3 sampleBus)).1 = LOW ∧
    (sampleDriver.readPin .GPA3
        (sampleDriver.togglePin .GPA3 (sampleDriver.togglePin .GPA3 sampleBus))).1 =
      (sampleDriver.readPin .GPA3 sampleBus).1 :=
  ⟨fun _ => rfl, rfl, by decide, by decide,
    togglePin_twice sampleDriver .GPA3 sampleBus (fun _ => rfl) rfl⟩

/-! ## Interrupt flags -/

/-- State after `clearInterrupt` on an acknowledging read-clears chip: both flag
registers hold zero and neither port has a latched interrupt condition. -/
theorem clearInterrupt_spec (self : MCP23017_7Semi) (w : TwoWire)
    (hack : ∀ n, w.ack n = true) (hrc : w.readClears = true) :
    (self.clearInterrupt w).ack = w.ack ∧
    (self.clearInterrupt w).regs INTFA = 0 ∧ (self.clearInterrupt w).regs INTFB = 0 ∧
    (self.clearInterrupt w).latchA = false ∧ (self.clearInterrupt w).latchB = false := by
  simp [clearInterrupt, readReg_snd, writeReg_snd, hack, hrc, TwoWire.deviceRead,
    TwoWire.deviceWrite, setReg, INTCAPA, INTCAPB, GPIOA, GPIOB, INTFA, INTFB, OLATA, OLATB]

/-- C9: on an acknowledging simulated chip with read-clears behaviour, after
`clearInterrupt` neither port has a latched interrupt condition and, for every
pin (in particular one whose flag was set), `getInterrupt` returns 0. -/
theorem clearInterrupt_then_getInterrupt (self : MCP23017_7Semi) (pin : pins) (w : TwoWire)
    (hack : ∀ n, w.ack n = true) (hrc : w.readClears = true) :
    (self.clearInterrupt w).latchA = false ∧ (self.clearInterrupt w).latchB = false ∧
    (self.getInterrupt pin (self.clearInterrupt w)).1 = 0 := by
  obtain ⟨ha, hA, hB, lA, lB⟩ := clearInterrupt_spec self w hack hrc
  have hack1 : ∀ n, (self.clearInterrupt w).ack n = true := by rw [ha]; exact hack
  refine ⟨lA, lB, ?_⟩
  by_cases h8 : pin.toNat < 8
  · simp only [getInterrupt, h8, if_true]
    rw [readReg_fst self INTFA _ hack1, show INTFA % 256 = INTFA from by decide, hA]
    simp
  · simp only [getInterrupt, h8, if_false]
    rw [readReg_fst self INTFB _ hack1, show INTFB % 256 = INTFB from by decide, hB]
    simp

/-- Witness for C9: pin `GPB5` of the sample chip is flagged (`INTFB = 0x20`) and
both ports have a latched condition before the call. -/
theorem clearInterrupt_then_getInterrupt_witness :
    (∀ n, sampleBus.ack n = true) ∧ sampleBus.readClears = true ∧
    sampleBus.latchA = true ∧ sampleBus.latchB = true ∧
    (sampleDriver.getInterrupt .GPB5 sampleBus).1 = 1 ∧
    (sampleDriver.clearInterrupt sampleBus).latchA = false ∧
    (sampleDriver.clearInterrupt sampleBus).latchB = false ∧
    (sampleDriver.getInterrupt .GPB5 (sampleDriver.clearInterrupt sampleBus)).1 = 0 :=
  ⟨fun _ => rfl, rfl, rfl, rfl, by decide,
    clearInterrupt_then_getInterrupt sampleDriver .GPB5 sampleBus (fun _ => rfl) rfl⟩

/-! ## Transactions issued by the register primitives and by `digitalWrite` -/

/-- A register read issues an address write and a one-byte read request, whatever
the bus acknowledges. -/
theorem readReg_log (self : MCP23017_7Semi) (reg : Nat) (w : TwoWire) :
    (self.readReg reg w).2.log =
      w.log ++ [Txn.write (self._address % 256) [reg % 256] (w.ack w.log.length),
                Txn.read (self._address % 256) 1 (w.ack (w.log.length + 1))] ∧
    (self.readReg reg w).1 < 256 := by
  refine ⟨?_, ?_⟩
  · simp only [readReg, TwoWire.beginTransmission, TwoWire.write, TwoWire.endTransmission,
      TwoWire.requestFrom, TwoWire.read]
    cases h1 : w.ack w.log.length <;> cases h2 : w.ack (w.log.length + 1) <;>
      simp [h1, h2, TwoWire.deviceWrite, TwoWire.deviceRead]
  · simp only [readReg]
    omega

/-- A register write issues one two-byte write transaction, whatever the bus
acknowledges. -/
theorem writeReg_log (self : MCP23017_7Semi) (reg v : Nat) (w : TwoWire) :
    (self.writeReg reg v w).2.log =
      w.log ++ [Txn.write (self._address % 256) [reg % 256, v % 256] (w.ack w.log.length)] := by
  simp only [writeReg, TwoWire.beginTransmission, TwoWire.write, TwoWire.endTransmission]
  cases h1 : w.ack w.log.length <;> simp [h1, TwoWire.deviceWrite]

/-- C10: for every pin, every level and every bus state, `digitalWrite` issues
exactly three transactions: an address write selecting the live-level register
of the port of the pin (`GPIOA` 0x12 / `GPIOB` 0x13, not the output latch), a one-byte
read, and one register write to the output latch of that port (`OLATA` 0x14 /
`OLATB` 0x15) carrying the byte that the read returned with bit `pin mod 8` set
to the level and the other seven bits as read; no other register is written.  On
an acknowledging bus the byte read is the content of the level register. -/
theorem digitalWrite_reads_level_writes_latch (self : MCP23017_7Semi) (pin : pins)
    (value : Bool) (w : TwoWire) :
    (GPIOA = 0x12 ∧ GPIOB = 0x13 ∧ OLATA = 0x14 ∧ OLATB = 0x15) ∧
    ((∀ n, w.ack n = true) →
      (self.readReg (if pin.toNat < 8 then GPIOA else GPIOB) w).1 =
        w.regs (if pin.toNat < 8 then GPIOA else GPIOB) % 256) ∧
    ∃ byte, byte < 256 ∧ byte.testBit (pin.toNat % 8) = value ∧
      (∀ j, j < 8 → j ≠ pin.toNat % 8 →
        byte.testBit j =
          (self.readReg (if pin.toNat < 8 then GPIOA else GPIOB) w).1.testBit j) ∧
      (self.digitalWrite pin value w).log =
        w.log ++
          [Txn.write (self._address % 256) [if pin.toNat < 8 then GPIOA else GPIOB]
              (w.ack w.log.length),
           Txn.read (self._address % 256) 1 (w.ack (w.log.length + 1)),
           Txn.write (self._address % 256) [if pin.toNat < 8 then OLATA else OLATB, byte]
              (w.ack (w.log.length + 2))] := by
  have hp := pin.toNat_lt
  have hv : decide (value.toNat = HIGH) = value := by cases value <;> decide
  refine ⟨⟨rfl, rfl, rfl, rfl⟩, fun hack => ?_, ?_⟩
  · rw [readReg_fst self _ w hack]
    split <;> rfl
  · by_cases h8 : pin.toNat < 8
    · have hb : pin.toNat % 8 = pin.toNat := Nat.mod_eq_of_lt h8
      obtain ⟨hlog, hlt⟩ := readReg_log self GPIOA w
      have hu := updBit_spec (value.toNat = HIGH) (self.readReg GPIOA w).1 pin.toNat h8
      rw [Nat.mod_eq_of_lt hlt, hv] at hu
      refine ⟨_, hu.2.2, by rw [hb]; exact hu.1, by rw [hb]; simpa [h8] using hu.2.1, ?_⟩
      simp only [digitalWrite, h8, if_true]
      rw [writeReg_log, hlog, (readReg_ack self GPIOA w).1]
      simp [GPIOA, OLATA]
    · have hb : pin.toNat % 8 = pin.toNat - 8 := by omega
      have hb8 : pin.toNat - 8 < 8 := by omega
      obtain ⟨hlog, hlt⟩ := readReg_log self GPIOB w
      have hu := updBit_spec (value.toNat = HIGH) (self.readReg GPIOB w).1 (pin.toNat - 8) hb8
      rw [Nat.mod_eq_of_lt hlt, hv] at hu
      refine ⟨_, hu.2.2, by rw [hb]; exact hu.1, by rw [hb]; simpa [h8] using hu.2.1, ?_⟩
      simp only [digitalWrite, h8, if_false]
      rw [writeReg_log, hlog, (readReg_ack self GPIOB w).1]
      simp [GPIOB, OLATB]

/-- Witness for C10: on the sample chip port B reads `0xC3` while its latch holds
`0x30`; writing pin `GPB2` high sends `0xC7`, the level byte with bit 2 set, to
`OLATB`. -/
theorem digitalWrite_reads_level_writes_latch_witness :
    (∀ n, sampleBus.ack n = true) ∧
    (sampleDriver.readReg GPIOB sampleBus).1 = sampleBus.regs GPIOB % 256 ∧
    (∃ byte, byte < 256 ∧ byte.testBit 2 = true ∧
      (∀ j, j < 8 → j ≠ 2 →
        byte.testBit j = (sampleDriver.readReg GPIOB sampleBus).1.testBit j) ∧
      (sampleDriver.digitalWrite .GPB2 true sampleBus).log =
        [Txn.write 0x20 [GPIOB] true, Txn.read 0x20 1 true,
         Txn.write 0x20 [OLATB, byte] true]) ∧
    sampleBus.regs GPIOB = 0xC3 ∧ sampleBus.regs OLATB = 0x30 ∧
    (sampleDriver.digitalWrite .GPB2 true sampleBus).log =
      [Txn.write 0x20 [0x13] true, Txn.read 0x20 1 true, Txn.write 0x20 [0x15, 0xC7] true] :=
  ⟨fun _ => rfl,
    (digitalWrite_reads_level_writes_latch sampleDriver .GPB2 true sampleBus).2.1 (fun _ => rfl),
    (digitalWrite_reads_level_writes_latch sampleDriver .GPB2 true sampleBus).2.2,
    by decide, by decide, by decide⟩

/-! ## Reading a pin and reading a flag -/

theorem newTxns_append (w later : TwoWire) (l : List Txn) (h : later.log = w.log ++ l) :
    newTxns w later = l := by
  simp [newTxns, h]

/-- On a chip without read-clears behaviour a register read leaves the register
file as it is, whatever the bus acknowledges. -/
theorem readReg_regs_plain (self : MCP23017_7Semi) (reg : Nat) (w : TwoWire)
    (hrc : w.readClears = false) : (self.readReg reg w).2.regs = w.regs := by
  simp only [readReg, TwoWire.beginTransmission, TwoWire.write, TwoWire.endTransmission,
    TwoWire.requestFrom, TwoWire.read]
  cases h1 : w.ack w.log.length <;> cases h2 : w.ack (w.log.length + 1) <;>
    simp [h1, h2, TwoWire.deviceWrite, TwoWire.deviceRead, hrc]

/-- A register read never amounts to a register write. -/
theorem readReg_no_write (self : MCP23017_7Semi) (reg : Nat) (w : TwoWire) :
    ∀ op ∈ regOps w.ptr (newTxns w (self.readReg reg w).2), op.isWrite = false := by
  rw [newTxns_append w _ _ (readReg_log self reg w).1]
  cases w.ack w.log.length <;> cases w.ack (w.log.length + 1) <;>
    simp [regOps, RegOp.isWrite]

/-- C11: for every pin and every state, `readPin` (and `digitalRead`, which only
calls it) returns 0 or 1; it puts an address write for the level register of
the port of the pin and a one-byte read on the bus, which never amount to a
register write, and on a chip without read-clears behaviour the register file
is unchanged; on an acknowledging bus the result is `HIGH` (1) when bit
`pin mod 8` of `GPIOA` (pins 0..7) or `GPIOB` (pins 8..15) is set and `LOW` (0)
otherwise. -/
theorem readPin_returns_level_bit (self : MCP23017_7Semi) (pin : pins) (w : TwoWire) :
    (HIGH = 1 ∧ LOW = 0) ∧
    ((∀ n, w.ack n = true) →
      (self.readPin pin w).1 =
        if (w.regs (if pin.toNat < 8 then GPIOA else GPIOB)).testBit (pin.toNat % 8)
          then HIGH else LOW) ∧
    ((self.readPin pin w).1 = 0 ∨ (self.readPin pin w).1 = 1) ∧
    self.digitalRead pin w = self.readPin pin w ∧
    (self.readPin pin w).2.log =
      w.log ++ [Txn.write (self._address % 256) [if pin.toNat < 8 then GPIOA else GPIOB]
                  (w.ack w.log.length),
                Txn.read (self._address % 256) 1 (w.ack (w.log.length + 1))] ∧
    (∀ op ∈ regOps w.ptr (newTxns w (self.readPin pin w).2), op.isWrite = false) ∧
    (w.readClears = false → (self.readPin pin w).2.regs = w.regs) := by
  refine ⟨⟨rfl, rfl⟩, fun hack => (readPin_spec self pin w hack).1, ?_, rfl, ?_, ?_, ?_⟩
  · by_cases h8 : pin.toNat < 8
    · simp only [readPin, h8, if_true]
      split_ifs <;> simp [HIGH, LOW]
    · simp only [readPin, h8, if_false]
      split_ifs <;> simp [HIGH, LOW]
  · by_cases h8 : pin.toNat < 8
    · simp only [readPin, h8, if_true]
      rw [(readReg_log self GPIOA w).1]; rfl
    · simp only [readPin, h8, if_false]
      rw [(readReg_log self GPIOB w).1]; rfl
  · by_cases h8 : pin.toNat < 8
    · simp only [readPin, h8, if_true]
      exact readReg_no_write self GPIOA w
    · simp only [readPin, h8, if_false]
      exact readReg_no_write self GPIOB w
  · intro hrc
    by_cases h8 : pin.toNat < 8
    · simp only [readPin, h8, if_true]
      exact readReg_regs_plain self GPIOA w hrc
    · simp only [readPin, h8, if_false]
      exact readReg_regs_plain self GPIOB w hrc

/-- Witness for C11: pin `GPA3` of the plain sample chip (`GPIOA = 0x5A`) reads
high, pin `GPB2` (`GPIOB = 0xC3`) reads low. -/
theorem readPin_returns_level_bit_witness :
    (∀ n, plainBus.ack n = true) ∧ plainBus.readClears = false ∧
    (sampleDriver.readPin .GPA3 plainBus).1 =
      (if (plainBus.regs GPIOA).testBit 3 then HIGH else LOW) ∧
    (sampleDriver.readPin .GPA3 plainBus).1 = 1 ∧
    (sampleDriver.readPin .GPB2 plainBus).1 = 0 ∧
    (sampleDriver.readPin .GPA3 plainBus).2.regs = plainBus.regs :=
  ⟨fun _ => rfl, rfl,
    (readPin_returns_level_bit sampleDriver .GPA3 plainBus).2.1 (fun _ => rfl),
    by decide, by decide,
    (readPin_returns_level_bit sampleDriver .GPA3 plainBus).2.2.2.2.2.2 rfl⟩

/-- C12: for every pin and every state, `getInterrupt` never amounts to a
register write; on an acknowledging bus it returns 1 when bit `pin mod 8` of the
flag register of the port of the pin (`INTFA` for pins 0..7, `INTFB` for pins
8..15) is set and 0 otherwise, the only register access is one read of that flag
register, and the register file and both interrupt latches are unchanged. -/
theorem getInterrupt_reads_flag_only (self : MCP23017_7Semi) (pin : pins) (w : TwoWire) :
    (∀ op ∈ regOps w.ptr (newTxns w (self.getInterrupt pin w).2), op.isWrite = false) ∧
    ((∀ n, w.ack n = true) →
      (self.getInterrupt pin w).1 =
        (if (w.regs (if pin.toNat < 8 then INTFA else INTFB)).testBit (pin.toNat % 8)
          then 1 else 0) ∧
      regOps w.ptr (newTxns w (self.getInterrupt pin w).2) =
        [RegOp.read (if pin.toNat < 8 then INTFA else INTFB)] ∧
      (self.getInterrupt pin w).2.regs = w.regs ∧
      (self.getInterrupt pin w).2.latchA = w.latchA ∧
      (self.getInterrupt pin w).2.latchB = w.latchB) := by
  have hp := pin.toNat_lt
  refine ⟨?_, fun hack => ?_⟩
  · by_cases h8 : pin.toNat < 8
    · simp only [getInterrupt, h8, if_true]
      exact readReg_no_write self INTFA w
    · simp only [getInterrupt, h8, if_false]
      exact readReg_no_write self INTFB w
  · by_cases h8 : pin.toNat < 8
    · have hb : pin.toNat % 8 = pin.toNat := Nat.mod_eq_of_lt h8
      simp only [getInterrupt, h8, hb, if_true]
      refine ⟨?_, ?_, ?_, ?_, ?_⟩
      · rw [readReg_fst self INTFA w hack]
        simp only [mask_ne_zero_iff, show INTFA % 256 = INTFA from by decide,
          testBit_mod256_lt _ _ h8]
      · rw [newTxns_append w _ _ (readReg_log self INTFA w).1]
        simp [regOps, hack, INTFA]
      · simp [readReg_snd, hack, TwoWire.deviceRead, INTFA, INTCAPA, INTCAPB, GPIOA, GPIOB]
      · simp [readReg_snd, hack, TwoWire.deviceRead, INTFA, INTCAPA, INTCAPB, GPIOA, GPIOB]
      · simp [readReg_snd, hack, TwoWire.deviceRead, INTFA, INTCAPA, INTCAPB, GPIOA, GPIOB]
    · have hb : pin.toNat % 8 = pin.toNat - 8 := by omega
      have hb8 : pin.toNat - 8 < 8 := by omega
      simp only [getInterrupt, h8, hb, if_false]
      refine ⟨?_, ?_, ?_, ?_, ?_⟩
      · rw [readReg_fst self INTFB w hack]
        simp only [mask_ne_zero_iff, show INTFB % 256 = INTFB from by decide,
          testBit_mod256_lt _ _ hb8]
      · rw [newTxns_append w _ _ (readReg_log self INTFB w).1]
        simp [regOps, hack, INTFB]
      · simp [readReg_snd, hack, TwoWire.deviceRead, INTFB, INTCAPA, INTCAPB, GPIOA, GPIOB]
      · simp [readReg_snd, hack, TwoWire.deviceRead, INTFB, INTCAPA, INTCAPB, GPIOA, GPIOB]
      · simp [readReg_snd, hack, TwoWire.deviceRead, INTFB, INTCAPA, INTCAPB, GPIOA, GPIOB]

/-- Witness for C12: pins `GPB5` (flagged, `INTFB = 0x20`) and `GPB4` (not
flagged) of the sample chip, which has read-clears behaviour. -/
theorem getInterrupt_reads_flag_only_witness :
    (∀ n, sampleBus.ack n = true) ∧
    ((sampleDriver.getInterrupt .GPB5 sampleBus).1 =
        (if (sampleBus.regs INTFB).testBit 5 then 1 else 0) ∧
      regOps sampleBus.ptr (newTxns sampleBus (sampleDriver.getInterrupt .GPB5 sampleBus).2) =
        [RegOp.read INTFB] ∧
      (sampleDriver.getInterrupt .GPB5 sampleBus).2.regs = sampleBus.regs ∧
      (sampleDriver.getInterrupt .GPB5 sampleBus).2.latchA = sampleBus.latchA ∧
      (sampleDriver.getInterrupt .GPB5 sampleBus).2.latchB = sampleBus.latchB) ∧
    (sampleDriver.getInterrupt .GPB5 sampleBus).1 = 1 ∧
    (sampleDriver.getInterrupt .GPB4 sampleBus).1 = 0 :=
  ⟨fun _ => rfl,
    (getInterrupt_reads_flag_only sampleDriver .GPB5 sampleBus).2 (fun _ => rfl),
    by decide, by decide⟩

/-! ## The register write primitive and `clearInterrupt` on the bus -/

/-- C13: for every register address and byte value, `writeReg` puts exactly one
write transaction on the bus, addressed to the device and carrying the two bytes
`[reg, value]` in that order; it returns true exactly when the end status of
that transaction is 0, that is, when the transaction is acknowledged; on an
acknowledging chip that is a plain register file for that address (no loopback,
or the address is not an output latch) the register then holds the value and
every other register is unchanged. -/
theorem writeReg_one_transaction (self : MCP23017_7Semi) (reg value : Nat) (w : TwoWire) :
    (self.writeReg reg value w).2.log =
      w.log ++ [Txn.write (self._address % 256) [reg % 256, value % 256]
                  (w.ack w.log.length)] ∧
    ((self.writeReg reg value w).1 = true ↔
      (((w.beginTransmission self._address).write reg).write value).endTransmission.1 = 0) ∧
    ((self.writeReg reg value w).1 = true ↔ w.ack w.log.length = true) ∧
    (w.ack w.log.length = true →
      (w.loopback = false ∨ (reg % 256 ≠ OLATA ∧ reg % 256 ≠ OLATB)) →
      (self.writeReg reg value w).2.regs (reg % 256) = value % 256 ∧
      ∀ a, a ≠ reg % 256 → (self.writeReg reg value w).2.regs a = w.regs a) := by
  refine ⟨writeReg_log self reg value w, ?_, ?_, ?_⟩
  · simp only [writeReg]
    split_ifs with h <;> simp [h]
  · cases h : w.ack w.log.length
    · simp [writeReg_of_nack self reg value w h]
    · simp [writeReg_of_ack self reg value w h]
  · intro hack hplain
    rw [writeReg_of_ack self reg value w hack]
    rcases hplain with hl | ⟨hA, hB⟩
    · refine ⟨by simp [TwoWire.deviceWrite, hl, setReg], fun a ha => ?_⟩
      simp [TwoWire.deviceWrite, hl, setReg, ha]
    · refine ⟨by simp [TwoWire.deviceWrite, hA, hB, setReg], fun a ha => ?_⟩
      simp [TwoWire.deviceWrite, hA, hB, setReg, ha]

/-- Witness for C13: `writeReg(IPOLA, 0x3C)` on the plain sample chip is
acknowledged and stores the byte. -/
theorem writeReg_one_transaction_witness :
    plainBus.ack plainBus.log.length = true ∧
    (plainBus.loopback = false ∨ (IPOLA % 256 ≠ OLATA ∧ IPOLA % 256 ≠ OLATB)) ∧
    (sampleDriver.writeReg IPOLA 0x3C plainBus).1 = true ∧
    (sampleDriver.writeReg IPOLA 0x3C plainBus).2.log = [Txn.write 0x20 [IPOLA, 0x3C] true] ∧
    (sampleDriver.writeReg IPOLA 0x3C plainBus).2.regs IPOLA = 0x3C ∧
    (∀ a, a ≠ IPOLA → (sampleDriver.writeReg IPOLA 0x3C plainBus).2.regs a = plainBus.regs a) ∧
    (sampleDriver.writeReg IPOLA 0x3C absentBus).1 = false :=
  ⟨rfl, Or.inl rfl,
    (writeReg_one_transaction sampleDriver IPOLA 0x3C plainBus).2.2.1.2 rfl,
    (writeReg_one_transaction sampleDriver IPOLA 0x3C plainBus).1,
    ((writeReg_one_transaction sampleDriver IPOLA 0x3C plainBus).2.2.2 rfl (Or.inl rfl)).1,
    ((writeReg_one_transaction sampleDriver IPOLA 0x3C plainBus).2.2.2 rfl (Or.inl rfl)).2,
    by decide⟩

/-- C14: `clearInterrupt` puts six transactions on the bus, which are four
register accesses in this order: read `INTCAPA` (0x10), read `INTCAPB` (0x11),
write `0x00` to `INTFA` (0x0E), write `0x00` to `INTFA` again; whatever the bus
acknowledges, every register write it amounts to targets `INTFA`, never `INTFB`
(0x0F). -/
theorem clearInterrupt_transactions (self : MCP23017_7Semi) (w : TwoWire) :
    (INTCAPA = 0x10 ∧ INTCAPB = 0x11 ∧ INTFA = 0x0E ∧ INTFB = 0x0F) ∧
    (self.clearInterrupt w).log =
      w.log ++
        [Txn.write (self._address % 256) [INTCAPA] (w.ack w.log.length),
         Txn.read (self._address % 256) 1 (w.ack (w.log.length + 1)),
         Txn.write (self._address % 256) [INTCAPB] (w.ack (w.log.length + 2)),
         Txn.read (self._address % 256) 1 (w.ack (w.log.length + 3)),
         Txn.write (self._address % 256) [INTFA, 0x00] (w.ack (w.log.length + 4)),
         Txn.write (self._address % 256) [INTFA, 0x00] (w.ack (w.log.length + 5))] ∧
    (∀ op ∈ regOps w.ptr (newTxns w (self.clearInterrupt w)),
      op.isWrite = true → op = RegOp.write INTFA 0x00) ∧
    ((∀ n, w.ack n = true) →
      regOps w.ptr (newTxns w (self.clearInterrupt w)) =
        [RegOp.read INTCAPA, RegOp.read INTCAPB, RegOp.write INTFA 0x00,
         RegOp.write INTFA 0x00]) := by
  have hlog : (self.clearInterrupt w).log =
      w.log ++
        [Txn.write (self._address % 256) [INTCAPA] (w.ack w.log.length),
         Txn.read (self._address % 256) 1 (w.ack (w.log.length + 1)),
         Txn.write (self._address % 256) [INTCAPB] (w.ack (w.log.length + 2)),
         Txn.read (self._address % 256) 1 (w.ack (w.log.length + 3)),
         Txn.write (self._address % 256) [INTFA, 0x00] (w.ack (w.log.length + 4)),
         Txn.write (self._address % 256) [INTFA, 0x00] (w.ack (w.log.length + 5))] := by
    simp only [clearInterrupt]
    rw [writeReg_log, writeReg_log, (readReg_log _ _ _).1, (readReg_log _ _ _).1]
    simp only [(writeReg_ack _ _ _ _).1, (readReg_ack _ _ _).1]
    simp [INTCAPA, INTCAPB, INTFA, Nat.add_assoc]
  refine ⟨⟨rfl, rfl, rfl, rfl⟩, hlog, ?_, fun hack => ?_⟩
  · rw [newTxns_append w _ _ hlog]
    cases w.ack w.log.length <;> cases w.ack (w.log.length + 1) <;>
    cases w.ack (w.log.length + 2) <;> cases w.ack (w.log.length + 3) <;>
    cases w.ack (w.log.length + 4) <;> cases w.ack (w.log.length + 5) <;>
      simp [regOps, RegOp.isWrite]
  · rw [newTxns_append w _ _ hlog]
    simp [regOps, hack]

/-- Witness for C14: `clearInterrupt` on the sample chip. -/
theorem clearInterrupt_transactions_witness :
    (∀ n, sampleBus.ack n = true) ∧
    regOps sampleBus.ptr (newTxns sampleBus (sampleDriver.clearInterrupt sampleBus)) =
      [RegOp.read INTCAPA, RegOp.read INTCAPB, RegOp.write INTFA 0x00,
       RegOp.write INTFA 0x00] ∧
    (sampleDriver.clearInterrupt sampleBus).log =
      [Txn.write 0x20 [0x10] true, Txn.read 0x20 1 true, Txn.write 0x20 [0x11] true,
       Txn.read 0x20 1 true, Txn.write 0x20 [0x0E, 0x00] true,
       Txn.write 0x20 [0x0E, 0x00] true] :=
  ⟨fun _ => rfl,
    (clearInterrupt_transactions sampleDriver sampleBus).2.2.2 (fun _ => rfl),
    (clearInterrupt_transactions sampleDriver sampleBus).2.1⟩

/-! ## The single-bit setters against the read-modify-write pattern -/

theorem compl8_two_pow (b : Nat) (hb : b < 8) : compl8 (1 <<< b) = 0xFF - 2 ^ b := by
  interval_cases b <;> rfl

/-- The byte of the spec pattern has bit `bit` as chosen and the other bits of
`x`. -/
theorem setBitTo_testBit (x bit j : Nat) (flag : Bool) (hx : x < 256) (hb : bit < 8) :
    (setBitTo x bit flag).testBit j = if j = bit then flag else x.testBit j := by
  have hj8 : 8 ≤ j → x.testBit j = false := fun h =>
    Nat.testBit_lt_two_pow (lt_of_lt_of_le hx (by
      calc 256 = 2 ^ 8 := by norm_num
        _ ≤ 2 ^ j := Nat.pow_le_pow_right (by norm_num) h))
  cases flag
  · simp only [setBitTo, Bool.false_eq_true, if_false, ← compl8_two_pow bit hb]
    rw [testBit_clearBit x bit j hb]
    by_cases hjb : j = bit
    · simp [hjb]
    · by_cases hj : j < 8
      · simp [hj, hjb, Ne.symm hjb]
      · simp [hjb, hj8 (Nat.le_of_not_lt hj)]
  · simp only [setBitTo, if_true, Nat.testBit_or, Nat.testBit_two_pow]
    by_cases hjb : j = bit
    · simp [hjb]
    · simp [hjb, Ne.symm hjb]

/-- The byte the code computes from a byte read off the bus is the byte of the
spec pattern. -/
theorem code_byte_eq_setBitTo (c : Prop) [Decidable c] (x b : Nat) (hx : x < 256) (hb : b < 8) :
    (if c then (x ||| (1 <<< b)) % 256 else x &&& compl8 (1 <<< b)) = setBitTo x b (decide c) := by
  by_cases hc : c
  · have h2 : 2 ^ b < 2 ^ 8 := Nat.pow_lt_pow_right (by norm_num) hb
    have hlt : x ||| 2 ^ b < 2 ^ 8 := Nat.or_lt_two_pow (by simpa using hx) h2
    simp only [hc, if_true, decide_True, setBitTo, Nat.one_shiftLeft]
    exact Nat.mod_eq_of_lt (by simpa using hlt)
  · simp only [hc, if_false, decide_False, setBitTo, Bool.false_eq_true, compl8_two_pow b hb]

/-- A setter of the shape of `pinMode`, `pullUp` and `setPolarity` is the spec
pattern. -/
theorem setter_eq_rmw (self : MCP23017_7Semi) (regA regB : Nat) (pin : pins) (c : Prop)
    [Decidable c] (w : TwoWire) :
    (if pin.toNat < 8 then
      (self.writeReg regA
        (if c then ((self.readReg regA w).1 ||| (1 <<< pin.toNat)) % 256
          else (self.readReg regA w).1 &&& compl8 (1 <<< pin.toNat)) (self.readReg regA w).2).2
     else
      (self.writeReg regB
        (if c then ((self.readReg regB w).1 ||| (1 <<< (pin.toNat - 8))) % 256
          else (self.readReg regB w).1 &&& compl8 (1 <<< (pin.toNat - 8)))
        (self.readReg regB w).2).2) =
    rmw self regA regB pin (decide c) w := by
  have hp := pin.toNat_lt
  by_cases h8 : pin.toNat < 8
  · have hb : pin.toNat % 8 = pin.toNat := Nat.mod_eq_of_lt h8
    simp only [rmw, h8, hb, if_true]
    rw [code_byte_eq_setBitTo c _ _ (readReg_log self regA w).2 h8]
  · have hb : pin.toNat % 8 = pin.toNat - 8 := by omega
    have hb8 : pin.toNat - 8 < 8 := by omega
    simp only [rmw, h8, hb, if_false]
    rw [code_byte_eq_setBitTo c _ _ (readReg_log self regB w).2 hb8]

/-- C15: `pullUp` and `setPolarity` follow the same read-modify-write pattern as
`pinMode`: for every pin, every boolean, every mode byte and every bus state,
`pullUp(p, b)` is `rmw(GPPUA, GPPUB, p, b)`, `setPolarity(p, b)` is
`rmw(IPOLA, IPOLB, p, b)` and `pinMode(p, m)` is
`rmw(IODIRA, IODIRB, p, m = INPUT)`, as whole bus-and-chip states. -/
theorem setters_refine_rmw (self : MCP23017_7Semi) (pin : pins) (w : TwoWire) :
    (∀ b : Bool, self.pullUp pin b w = rmw self GPPUA GPPUB pin b w) ∧
    (∀ b : Bool, self.setPolarity pin b w = rmw self IPOLA IPOLB pin b w) ∧
    (∀ m : Nat, m < 256 →
      self.pinMode pin m w = rmw self IODIRA IODIRB pin (decide (m = INPUT)) w) := by
  refine ⟨fun b => ?_, fun b => ?_, fun m hm => ?_⟩
  · have h := setter_eq_rmw self GPPUA GPPUB pin (b = true) w
    simpa [pullUp] using h
  · have h := setter_eq_rmw self IPOLA IPOLB pin (b = true) w
    simpa [setPolarity] using h
  · have h := setter_eq_rmw self IODIRA IODIRB pin (m % 256 = INPUT) w
    rw [Nat.mod_eq_of_lt hm] at h
    simpa [pinMode, Nat.mod_eq_of_lt hm] using h

/-- Witness for C15: the mode byte `OUTPUT` on pin `GPB6` of the sample chip. -/
theorem setters_refine_rmw_witness :
    OUTPUT < 256 ∧
    sampleDriver.pinMode .GPB6 OUTPUT sampleBus =
      rmw sampleDriver IODIRA IODIRB .GPB6 (decide (OUTPUT = INPUT)) sampleBus ∧
    (sampleDriver.pinMode .GPB6 OUTPUT sampleBus).regs IODIRB = 0xB0 ∧
    (rmw sampleDriver IODIRA IODIRB .GPB6 false sampleBus).regs IODIRB = 0xB0 :=
  ⟨by decide, (setters_refine_rmw sampleDriver .GPB6 sampleBus).2.2 OUTPUT (by decide),
    by decide, by decide⟩

/-! ## Register addresses -/

/-- C17: the driver names exactly twenty register addresses, they are pairwise
distinct, for each of the ten register functions the port-B address is the
port-A address plus one, and a `writeReg` to a named register amounts to
accesses of that register only, so it never targets another one. -/
theorem register_addresses_distinct :
    registerAddresses.length = 20 ∧ registerAddresses.Nodup ∧
    (∀ p ∈ registerPairs, p.2 = p.1 + 1) ∧
    (∀ r ∈ registerAddresses, ∀ (self : MCP23017_7Semi) (value : Nat) (w : TwoWire),
      ∀ op ∈ regOps w.ptr (newTxns w (self.writeReg r value w).2), op.reg = r) := by
  refine ⟨by decide, by decide, by decide, fun r hr self value w => ?_⟩
  have hlt : r % 256 = r := by
    have : ∀ x ∈ registerAddresses, x % 256 = x := by decide
    exact this r hr
  rw [newTxns_append w _ _ (writeReg_log self r value w), hlt]
  cases w.ack w.log.length <;> simp [regOps, RegOp.reg]

/-- Witness for C17: the pair of the pull-up registers, and a write to `GPPUA`
on the sample chip. -/
theorem register_addresses_distinct_witness :
    (GPPUA, GPPUB) ∈ registerPairs ∧ GPPUB = GPPUA + 1 ∧ GPPUA ∈ registerAddresses ∧
    (∀ op ∈ regOps sampleBus.ptr (newTxns sampleBus (sampleDriver.writeReg GPPUA 0x81 sampleBus).2),
      op.reg = GPPUA) ∧
    regOps sampleBus.ptr (newTxns sampleBus (sampleDriver.writeReg GPPUA 0x81 sampleBus).2) =
      [RegOp.write GPPUA 0x81] :=
  ⟨by decide, register_addresses_distinct.2.2.1 (GPPUA, GPPUB) (by decide), by decide,
    register_addresses_distinct.2.2.2 GPPUA (by decide) sampleDriver 0x81 sampleBus,
    by decide⟩

/-! ## Reads that fail -/

/-- Counterexample for C18: with no device answering, the transport of the
Arduino cores has no data and `read()` hands back -1; `readReg` narrows it to
`0xFF`, not `0x00`. -/
theorem readReg_no_data_not_zero :
    absentBus.noData = -1 ∧
    ((((absentBus.beginTransmission sampleDriver._address).write GPIOA).endTransmission.2
        ).requestFrom sampleDriver._address 1).1 = 0 ∧
    (sampleDriver.readReg GPIOA absentBus).1 = 0xFF ∧
    ¬ (sampleDriver.readReg GPIOA absentBus).1 = 0x00 := by
  decide

/-- C18 as amended: `readReg` signals no error.  It returns a bare byte and puts
the address write and the read request on the bus whatever the status of the
address write is; when the read request is acknowledged the byte is the content
of the register under the address pointer of the chip (the requested register
if the address write was acknowledged, the previously addressed one if not);
when the transport has no data the byte is the no-data value of the transport
narrowed to eight bits, which is `0xFF` for the -1 of the Arduino cores and
`0x00` only for a transport whose no-data value is 0; in each case it is the
byte a legitimate read of a register holding that value returns. -/
theorem readReg_signals_no_error (self : MCP23017_7Semi) (reg : Nat) (w : TwoWire) :
    (self.readReg reg w).1 < 256 ∧
    (self.readReg reg w).2.log =
      w.log ++ [Txn.write (self._address % 256) [reg % 256] (w.ack w.log.length),
                Txn.read (self._address % 256) 1 (w.ack (w.log.length + 1))] ∧
    (w.ack (w.log.length + 1) = true →
      (self.readReg reg w).1 =
        w.regs (if w.ack w.log.length then reg % 256 else w.ptr) % 256) ∧
    (w.ack (w.log.length + 1) = false →
      (self.readReg reg w).1 = (w.noData % 256).toNat ∧
      (w.noData = -1 → (self.readReg reg w).1 = 0xFF) ∧
      (w.noData = 0 → (self.readReg reg w).1 = 0x00) ∧
      ∀ (v : TwoWire), (∀ n, v.ack n = true) →
        v.regs (reg % 256) = (w.noData % 256).toNat →
        (self.readReg reg v).1 = (self.readReg reg w).1) := by
  have hno : w.ack (w.log.length + 1) = false →
      (self.readReg reg w).1 = (w.noData % 256).toNat := by
    intro h2
    simp only [readReg, TwoWire.beginTransmission, TwoWire.write, TwoWire.endTransmission,
      TwoWire.requestFrom, TwoWire.read]
    cases h1 : w.ack w.log.length <;> simp [h1, h2, TwoWire.deviceWrite]
  refine ⟨(readReg_log self reg w).2, (readReg_log self reg w).1, fun h2 => ?_, fun h2 => ?_⟩
  · simp only [readReg, TwoWire.beginTransmission, TwoWire.write, TwoWire.endTransmission,
      TwoWire.requestFrom, TwoWire.read]
    cases h1 : w.ack w.log.length <;>
      simp [h1, h2, TwoWire.deviceWrite, TwoWire.deviceRead] <;> omega
  · refine ⟨hno h2, fun hn => ?_, fun hn => ?_, fun v hv hreg => ?_⟩
    · rw [hno h2, hn]; decide
    · rw [hno h2, hn]; decide
    · rw [hno h2, readReg_fst self reg v hv, hreg]
      exact Nat.mod_eq_of_lt (by omega)

/-- Witness for C18 as amended: a read on the bus with no device answering, and
the same byte read from a register that holds `0xFF`. -/
theorem readReg_signals_no_error_witness :
    absentBus.ack (absentBus.log.length + 1) = false ∧ absentBus.noData = -1 ∧
    (sampleDriver.readReg GPIOA absentBus).1 = (absentBus.noData % 256).toNat ∧
    (sampleDriver.readReg GPIOA absentBus).1 = 0xFF ∧
    (flakyBus 0).ack ((flakyBus 0).log.length + 1) = true ∧
    (sampleDriver.readReg GPIOA (flakyBus 0)).1 =
      (flakyBus 0).regs (if (flakyBus 0).ack (flakyBus 0).log.length then GPIOA % 256
        else (flakyBus 0).ptr) % 256 ∧
    (sampleDriver.readReg GPIOA (flakyBus 0)).1 = 0x00 :=
  ⟨rfl, rfl,
    ((readReg_signals_no_error sampleDriver GPIOA absentBus).2.2.2 rfl).1,
    ((readReg_signals_no_error sampleDriver GPIOA absentBus).2.2.2 rfl).2.1 rfl,
    rfl,
    (readReg_signals_no_error sampleDriver GPIOA (flakyBus 0)).2.2.1 rfl,
    by decide⟩

/-! ## Mode bytes other than `INPUT` -/

/-- C19: for every pin, every mode byte and every prior state of an
acknowledging bus, after `pinMode` bit `pin mod 8` of the direction register of
the port of the pin is 1 exactly when the mode byte equals `INPUT`: every other
byte (`OUTPUT`, `INPUT_PULLUP` or any other value) clears the bit, that is,
makes the pin an output; each of the other seven bits keeps its prior value. -/
theorem pinMode_only_input_sets_bit (self : MCP23017_7Semi) (pin : pins) (m : Nat)
    (w : TwoWire) (hack : ∀ n, w.ack n = true) (hm : m < 256) :
    (OUTPUT ≠ INPUT ∧ INPUT_PULLUP ≠ INPUT) ∧
    (m ≠ INPUT →
      ((self.pinMode pin m w).regs (if pin.toNat < 8 then IODIRA else IODIRB)).testBit
        (pin.toNat % 8) = false) ∧
    (((self.pinMode pin m w).regs (if pin.toNat < 8 then IODIRA else IODIRB)).testBit
        (pin.toNat % 8) = true → m = INPUT) ∧
    (∀ j, j < 8 → j ≠ pin.toNat % 8 →
      ((self.pinMode pin m w).regs (if pin.toNat < 8 then IODIRA else IODIRB)).testBit j =
      (w.regs (if pin.toNat < 8 then IODIRA else IODIRB)).testBit j) := by
  have hp := pin.toNat_lt
  have hmm : m % 256 = m := Nat.mod_eq_of_lt hm
  have key :
      ((self.pinMode pin m w).regs (if pin.toNat < 8 then IODIRA else IODIRB)).testBit
          (pin.toNat % 8) = decide (m = INPUT) ∧
      (∀ j, j < 8 → j ≠ pin.toNat % 8 →
        ((self.pinMode pin m w).regs (if pin.toNat < 8 then IODIRA else IODIRB)).testBit j =
        (w.regs (if pin.toNat < 8 then IODIRA else IODIRB)).testBit j) := by
    by_cases h8 : pin.toNat < 8
    · have hb : pin.toNat % 8 = pin.toNat := Nat.mod_eq_of_lt h8
      have hr := (rmw_regs self IODIRA
        (fun x => if m % 256 = INPUT then (x ||| (1 <<< pin.toNat)) % 256
          else x &&& compl8 (1 <<< pin.toNat)) w hack (by decide) (by decide)).1
      have hu := updBit_spec (m % 256 = INPUT) (w.regs IODIRA) pin.toNat h8
      simp only [pinMode, h8, hb, if_true]
      rw [hr, setReg_same]
      rw [hmm] at hu ⊢
      exact ⟨hu.1, hu.2.1⟩
    · have hb : pin.toNat % 8 = pin.toNat - 8 := by omega
      have hb8 : pin.toNat - 8 < 8 := by omega
      have hr := (rmw_regs self IODIRB
        (fun x => if m % 256 = INPUT then (x ||| (1 <<< (pin.toNat - 8))) % 256
          else x &&& compl8 (1 <<< (pin.toNat - 8))) w hack (by decide) (by decide)).1
      have hu := updBit_spec (m % 256 = INPUT) (w.regs IODIRB) (pin.toNat - 8) hb8
      simp only [pinMode, h8, hb, if_false]
      rw [hr, setReg_same]
      rw [hmm] at hu ⊢
      exact ⟨hu.1, hu.2.1⟩
  refine ⟨⟨by decide, by decide⟩, fun hne => ?_, fun hset => ?_, key.2⟩
  · rw [key.1]; simp [hne]
  · rw [key.1] at hset
    simpa using hset

/-- Witness for C19: the mode byte `INPUT_PULLUP` on pin `GPB6` of the sample
chip, whose direction bit was 1 (input), makes the pin an output. -/
theorem pinMode_only_input_sets_bit_witness :
    (∀ n, sampleBus.ack n = true) ∧ INPUT_PULLUP < 256 ∧ INPUT_PULLUP ≠ INPUT ∧
    (sampleBus.regs IODIRB).testBit 6 = true ∧
    ((sampleDriver.pinMode .GPB6 INPUT_PULLUP sampleBus).regs IODIRB).testBit 6 = false ∧
    (∀ j, j < 8 → j ≠ 6 →
      ((sampleDriver.pinMode .GPB6 INPUT_PULLUP sampleBus).regs IODIRB).testBit j =
      (sampleBus.regs IODIRB).testBit j) :=
  ⟨fun _ => rfl, by decide, by decide, by decide,
    (pinMode_only_input_sets_bit sampleDriver .GPB6 INPUT_PULLUP sampleBus (fun _ => rfl)
      (by decide)).2.1 (by decide),
    (pinMode_only_input_sets_bit sampleDriver .GPB6 INPUT_PULLUP sampleBus (fun _ => rfl)
      (by decide)).2.2.2⟩

/-! ## Each pin operation stays on the port of its pin -/

/-- Read-modify-write of a register without side effects stays on the port that
register belongs to. -/
theorem rmw_staysOnPort (self : MCP23017_7Semi) (reg : Nat) (f : Nat → Nat) (w : TwoWire)
    (hack : ∀ n, w.ack n = true) (hreg : reg < 256)
    (hside : reg ≠ INTCAPA ∧ reg ≠ INTCAPB ∧ reg ≠ GPIOA ∧ reg ≠ GPIOB ∧ reg ≠ OLATA ∧ reg ≠ OLATB)
    (own other : List Nat) (hown : reg ∈ own) (hother : reg ∉ other) :
    StaysOnPort own other w
      (self.writeReg reg (f (self.readReg reg w).1) (self.readReg reg w).2).2 := by
  have hm : reg % 256 = reg := Nat.mod_eq_of_lt hreg
  refine ⟨?_, fun a ha => ?_⟩
  · have hlog : (self.writeReg reg (f (self.readReg reg w).1) (self.readReg reg w).2).2.log =
        w.log ++ [Txn.write (self._address % 256) [reg] true,
          Txn.read (self._address % 256) 1 true,
          Txn.write (self._address % 256) [reg, f (self.readReg reg w).1 % 256] true] := by
      rw [writeReg_log, (readReg_log self reg w).1, (readReg_ack self reg w).1]
      simp [hack, hm]
    rw [newTxns_append w _ _ hlog]
    simp [regOps, RegOp.reg, hown]
  · rw [(rmw_regs self reg f w hack hreg hside).1]
    have hne : a ≠ reg := fun h => hother (h ▸ ha)
    simp [setReg, hne]

theorem pinMode_staysOnPort (self : MCP23017_7Semi) (pin : pins) (mode : Nat) (w : TwoWire)
    (hack : ∀ n, w.ack n = true) :
    StaysOnPort (ownPort pin) (otherPort pin) w (self.pinMode pin mode w) := by
  by_cases h8 : pin.toNat < 8
  · simp only [pinMode, ownPort, otherPort, h8, if_true]
    exact rmw_staysOnPort self IODIRA (fun x => if mode % 256 = INPUT then
      (x ||| (1 <<< pin.toNat)) % 256 else x &&& compl8 (1 <<< pin.toNat)) w hack
      (by decide) (by decide) portA portB (by decide) (by decide)
  · simp only [pinMode, ownPort, otherPort, h8, if_false]
    exact rmw_staysOnPort self IODIRB (fun x => if mode % 256 = INPUT then
      (x ||| (1 <<< (pin.toNat - 8))) % 256 else x &&& compl8 (1 <<< (pin.toNat - 8))) w hack
      (by decide) (by decide) portB portA (by decide) (by decide)

theorem pullUp_staysOnPort (self : MCP23017_7Semi) (pin : pins) (enable : Bool) (w : TwoWire)
    (hack : ∀ n, w.ack n = true) :
    StaysOnPort (ownPort pin) (otherPort pin) w (self.pullUp pin enable w) := by
  by_cases h8 : pin.toNat < 8
  · simp only [pullUp, ownPort, otherPort, h8, if_true]
    exact rmw_staysOnPort self GPPUA (fun x => if enable = true then
      (x ||| (1 <<< pin.toNat)) % 256 else x &&& compl8 (1 <<< pin.toNat)) w hack
      (by decide) (by decide) portA portB (by decide) (by decide)
  · simp only [pullUp, ownPort, otherPort, h8, if_false]
    exact rmw_staysOnPort self GPPUB (fun x => if enable = true then
      (x ||| (1 <<< (pin.toNat - 8))) % 256 else x &&& compl8 (1 <<< (pin.toNat - 8))) w hack
      (by decide) (by decide) portB portA (by decide) (by decide)

theorem setPolarity_staysOnPort (self : MCP23017_7Semi) (pin : pins) (invert : Bool)
    (w : TwoWire) (hack : ∀ n, w.ack n = true) :
    StaysOnPort (ownPort pin) (otherPort pin) w (self.setPolarity pin invert w) := by
  by_cases h8 : pin.toNat < 8
  · simp only [setPolarity, ownPort, otherPort, h8, if_true]
    exact rmw_staysOnPort self IPOLA (fun x => if invert = true then
      (x ||| (1 <<< pin.toNat)) % 256 else x &&& compl8 (1 <<< pin.toNat)) w hack
      (by decide) (by decide) portA portB (by decide) (by decide)
  · simp only [setPolarity, ownPort, otherPort, h8, if_false]
    exact rmw_staysOnPort self IPOLB (fun x => if invert = true then
      (x ||| (1 <<< (pin.toNat - 8))) % 256 else x &&& compl8 (1 <<< (pin.toNat - 8))) w hack
      (by decide) (by decide) portB portA (by decide) (by decide)

theorem disableInterrupt_staysOnPort (self : MCP23017_7Semi) (pin : pins) (w : TwoWire)
    (hack : ∀ n, w.ack n = true) :
    StaysOnPort (ownPort pin) (otherPort pin) w (self.disableInterrupt pin w) := by
  by_cases h8 : pin.toNat < 8
  · simp only [disableInterrupt, ownPort, otherPort, h8, if_true]
    exact rmw_staysOnPort self INTEA (fun x => x &&& compl8 (1 <<< pin.toNat)) w hack
      (by decide) (by decide) portA portB (by decide) (by decide)
  · simp only [disableInterrupt, ownPort, otherPort, h8, if_false]
    exact rmw_staysOnPort self INTEB (fun x => x &&& compl8 (1 <<< (pin.toNat - 8))) w hack
      (by decide) (by decide) portB portA (by decide) (by decide)

/-- Transactions of one read-modify-write step on an acknowledging bus. -/
theorem rmw_log (self : MCP23017_7Semi) (reg : Nat) (f : Nat → Nat) (w : TwoWire)
    (hack : ∀ n, w.ack n = true) (hreg : reg < 256) :
    (self.writeReg reg (f (self.readReg reg w).1) (self.readReg reg w).2).2.log =
      w.log ++ [Txn.write (self._address % 256) [reg] true,
        Txn.read (self._address % 256) 1 true,
        Txn.write (self._address % 256) [reg, f (self.readReg reg w).1 % 256] true] := by
  have hm : reg % 256 = reg := Nat.mod_eq_of_lt hreg
  rw [writeReg_log, (readReg_log self reg w).1, (readReg_ack self reg w).1]
  simp [hack, hm]

theorem enableInterrupt_staysOnPort (self : MCP23017_7Semi) (pin : pins) (c d : Bool)
    (w : TwoWire) (hack : ∀ n, w.ack n = true) :
    StaysOnPort (ownPort pin) (otherPort pin) w (self.enableInterrupt pin c d w) := by
  refine ⟨?_, fun a ha => ?_⟩
  · by_cases h8 : pin.toNat < 8
    · have h1 := rmw_regs self INTCONA
        (fun x => if c then (x ||| (1 <<< pin.toNat)) % 256 else x &&& compl8 (1 <<< pin.toNat))
        w hack (by decide) (by decide)
      have h2 := rmw_regs self DEFVALA
        (fun x => if d then (x ||| (1 <<< pin.toNat)) % 256 else x &&& compl8 (1 <<< pin.toNat))
        _ h1.2 (by decide) (by decide)
      have l1 := rmw_log self INTCONA
        (fun x => if c then (x ||| (1 <<< pin.toNat)) % 256 else x &&& compl8 (1 <<< pin.toNat))
        w hack (by decide)
      have l2 := rmw_log self DEFVALA
        (fun x => if d then (x ||| (1 <<< pin.toNat)) % 256 else x &&& compl8 (1 <<< pin.toNat))
        _ h1.2 (by decide)
      have l3 := rmw_log self INTEA (fun x => (x ||| (1 <<< pin.toNat)) % 256)
        _ h2.2 (by decide)
      simp only [enableInterrupt, ownPort, h8, if_true, newTxns]
      rw [l3, l2, l1]
      simp [regOps, RegOp.reg, portA]
    · have h1 := rmw_regs self INTCONB
        (fun x => if c then (x ||| (1 <<< (pin.toNat - 8))) % 256
          else x &&& compl8 (1 <<< (pin.toNat - 8)))
        w hack (by decide) (by decide)
      have h2 := rmw_regs self DEFVALB
        (fun x => if d then (x ||| (1 <<< (pin.toNat - 8))) % 256
          else x &&& compl8 (1 <<< (pin.toNat - 8)))
        _ h1.2 (by decide) (by decide)
      have l1 := rmw_log self INTCONB
        (fun x => if c then (x ||| (1 <<< (pin.toNat - 8))) % 256
          else x &&& compl8 (1 <<< (pin.toNat - 8)))
        w hack (by decide)
      have l2 := rmw_log self DEFVALB
        (fun x => if d then (x ||| (1 <<< (pin.toNat - 8))) % 256
          else x &&& compl8 (1 <<< (pin.toNat - 8)))
        _ h1.2 (by decide)
      have l3 := rmw_log self INTEB (fun x => (x ||| (1 <<< (pin.toNat - 8))) % 256)
        _ h2.2 (by decide)
      simp only [enableInterrupt, ownPort, h8, if_false, newTxns]
      simp only [show ((1 : Nat) = 0) = False from by simp, if_false]
      rw [l3, l2, l1]
      simp [regOps, RegOp.reg, portB]
  · rw [enableInterrupt_regs self pin c d w hack]
    by_cases h8 : pin.toNat < 8
    · simp only [otherPort, h8, if_true, portB, List.mem_cons, List.mem_singleton,
        List.not_mem_nil, or_false] at ha
      simp only [h8, if_true]
      rcases ha with rfl | rfl | rfl | rfl | rfl | rfl | rfl | rfl | rfl | rfl <;>
        simp [setReg, IODIRB, IPOLB, INTEB, DEFVALB, INTCONB, INTCAPB, GPIOB, OLATB, GPPUB,
          INTFB, INTCONA, DEFVALA, INTEA]
    · simp only [otherPort, h8, if_false, portA, List.mem_cons, List.mem_singleton,
        List.not_mem_nil, or_false] at ha
      simp only [h8, if_false]
      rcases ha with rfl | rfl | rfl | rfl | rfl | rfl | rfl | rfl | rfl | rfl <;>
        simp [setReg, IODIRA, IPOLA, INTEA, DEFVALA, INTCONA, INTCAPA, GPIOA, OLATA, GPPUA,
          INTFA, INTCONB, DEFVALB, INTEB]

/-- On an acknowledging bus `readPin` leaves the registers of the other port as
they are and puts two acknowledged transactions on the bus. -/
theorem readPin_other_port (self : MCP23017_7Semi) (pin : pins) (w : TwoWire)
    (hack : ∀ n, w.ack n = true) :
    (∀ a ∈ otherPort pin, (self.readPin pin w).2.regs a = w.regs a) ∧
    (self.readPin pin w).2.log =
      w.log ++ [Txn.write (self._address % 256) [if pin.toNat < 8 then GPIOA else GPIOB] true,
                Txn.read (self._address % 256) 1 true] := by
  by_cases h8 : pin.toNat < 8
  · simp only [readPin, otherPort, h8, if_true]
    refine ⟨fun a ha => ?_, ?_⟩
    · simp only [portB, List.mem_cons, List.mem_singleton, List.not_mem_nil, or_false] at ha
      cases hc : w.readClears <;>
      rcases ha with rfl | rfl | rfl | rfl | rfl | rfl | rfl | rfl | rfl | rfl <;>
        simp [readReg_snd, hack, hc, TwoWire.deviceRead, setReg, IODIRB, IPOLB, INTEB, DEFVALB,
          INTCONB, INTCAPB, GPIOB, OLATB, GPPUB, INTFB, INTCAPA, GPIOA, INTFA]
    · rw [(readReg_log self GPIOA w).1]
      simp [hack, GPIOA]
  · simp only [readPin, otherPort, h8, if_false]
    refine ⟨fun a ha => ?_, ?_⟩
    · simp only [portA, List.mem_cons, List.mem_singleton, List.not_mem_nil, or_false] at ha
      cases hc : w.readClears <;>
      rcases ha with rfl | rfl | rfl | rfl | rfl | rfl | rfl | rfl | rfl | rfl <;>
        simp [readReg_snd, hack, hc, TwoWire.deviceRead, setReg, IODIRA, IPOLA, INTEA, DEFVALA,
          INTCONA, INTCAPA, GPIOA, OLATA, GPPUA, INTFA, INTCAPB, GPIOB, INTFB]
    · rw [(readReg_log self GPIOB w).1]
      simp [hack, GPIOB]

/-- On an acknowledging bus `digitalWrite` leaves the registers of the other
port as they are. -/
theorem digitalWrite_other_port (self : MCP23017_7Semi) (pin : pins) (value : Bool)
    (w : TwoWire) (hack : ∀ n, w.ack n = true) :
    ∀ a ∈ otherPort pin, (self.digitalWrite pin value w).regs a = w.regs a := by
  intro a ha
  by_cases h8 : pin.toNat < 8
  · simp only [otherPort, h8, if_true, portB, List.mem_cons, List.mem_singleton,
      List.not_mem_nil, or_false] at ha
    simp only [digitalWrite, h8, if_true]
    cases hl : w.loopback <;> cases hc : w.readClears <;>
    rcases ha with rfl | rfl | rfl | rfl | rfl | rfl | rfl | rfl | rfl | rfl <;>
      simp [readReg_fst, readReg_snd, writeReg_snd, hack, TwoWire.deviceRead,
        TwoWire.deviceWrite, setReg, hl, hc, IODIRB, IPOLB, INTEB, DEFVALB, INTCONB, INTCAPB,
        GPIOB, OLATB, GPPUB, INTFB, INTCAPA, GPIOA, INTFA, OLATA]
  · simp only [otherPort, h8, if_false, portA, List.mem_cons, List.mem_singleton,
      List.not_mem_nil, or_false] at ha
    simp only [digitalWrite, h8, if_false]
    cases hl : w.loopback <;> cases hc : w.readClears <;>
    rcases ha with rfl | rfl | rfl | rfl | rfl | rfl | rfl | rfl | rfl | rfl <;>
      simp [readReg_fst, readReg_snd, writeReg_snd, hack, TwoWire.deviceRead,
        TwoWire.deviceWrite, setReg, hl, hc, IODIRA, IPOLA, INTEA, DEFVALA, INTCONA, INTCAPA,
        GPIOA, OLATA, GPPUA, INTFA, INTCAPB, GPIOB, INTFB, OLATB]

theorem ownPort_level_latch (pin : pins) :
    (if pin.toNat < 8 then GPIOA else GPIOB) ∈ ownPort pin ∧
    (if pin.toNat < 8 then OLATA else OLATB) ∈ ownPort pin := by
  by_cases h8 : pin.toNat < 8
  · simp only [ownPort, h8, if_true]; decide
  · simp only [ownPort, h8, if_false]; decide

theorem digitalWrite_staysOnPort (self : MCP23017_7Semi) (pin : pins) (value : Bool)
    (w : TwoWire) (hack : ∀ n, w.ack n = true) :
    StaysOnPort (ownPort pin) (otherPort pin) w (self.digitalWrite pin value w) := by
  refine ⟨?_, digitalWrite_other_port self pin value w hack⟩
  rw [newTxns_append w _ _ (digitalWrite_spec self pin value w hack).2.2.2.2]
  simp [regOps, RegOp.reg, ownPort_level_latch pin]

theorem togglePin_staysOnPort (self : MCP23017_7Semi) (pin : pins) (w : TwoWire)
    (hack : ∀ n, w.ack n = true) :
    StaysOnPort (ownPort pin) (otherPort pin) w (self.togglePin pin w) := by
  obtain ⟨_, r2, _, _⟩ := readPin_spec self pin w hack
  have hack1 : ∀ n, (self.readPin pin w).2.ack n = true := by rw [r2]; exact hack
  obtain ⟨hregs, hlog⟩ := readPin_other_port self pin w hack
  refine ⟨?_, fun a ha => ?_⟩
  · have hl := (digitalWrite_spec self pin
      (decide ((if (self.readPin pin w).1 = HIGH then LOW else HIGH) ≠ 0))
      (self.readPin pin w).2 hack1).2.2.2.2
    simp only [togglePin, digitalRead, newTxns]
    rw [hl, hlog]
    simp [regOps, RegOp.reg, ownPort_level_latch pin]
  · simp only [togglePin, digitalRead]
    rw [digitalWrite_other_port self pin _ _ hack1 a ha, hregs a ha]

/-- C16: every pin-level operation resolves its pin to a port and the bit offset
`pin mod 8` (the offset the code uses, `pin` for pins 0..7 and `pin - 8` for pins
8..15), with pins 0..7 on port A and pins 8..15 on port B; on an acknowledging
bus each of `pinMode`, `digitalWrite`, `togglePin`, `pullUp`, `setPolarity`,
`enableInterrupt` and `disableInterrupt` reads and writes registers of the port
of its pin only and leaves every register of the other port unchanged. -/
theorem pin_operations_stay_on_port (self : MCP23017_7Semi) (pin : pins) (w : TwoWire)
    (hack : ∀ n, w.ack n = true) :
    (pin.toNat % 8 = if pin.toNat < 8 then pin.toNat else pin.toNat - 8) ∧
    (pin.toNat < 8 → ownPort pin = portA ∧ otherPort pin = portB) ∧
    (8 ≤ pin.toNat → ownPort pin = portB ∧ otherPort pin = portA) ∧
    (∀ mode, StaysOnPort (ownPort pin) (otherPort pin) w (self.pinMode pin mode w)) ∧
    (∀ value, StaysOnPort (ownPort pin) (otherPort pin) w (self.digitalWrite pin value w)) ∧
    StaysOnPort (ownPort pin) (otherPort pin) w (self.togglePin pin w) ∧
    (∀ enable, StaysOnPort (ownPort pin) (otherPort pin) w (self.pullUp pin enable w)) ∧
    (∀ invert, StaysOnPort (ownPort pin) (otherPort pin) w (self.setPolarity pin invert w)) ∧
    (∀ compareToDefval defval, StaysOnPort (ownPort pin) (otherPort pin) w
      (self.enableInterrupt pin compareToDefval defval w)) ∧
    StaysOnPort (ownPort pin) (otherPort pin) w (self.disableInterrupt pin w) := by
  have hp := pin.toNat_lt
  refine ⟨?_, fun h8 => ?_, fun h8 => ?_,
    fun mode => pinMode_staysOnPort self pin mode w hack,
    fun value => digitalWrite_staysOnPort self pin value w hack,
    togglePin_staysOnPort self pin w hack,
    fun enable => pullUp_staysOnPort self pin enable w hack,
    fun invert => setPolarity_staysOnPort self pin invert w hack,
    fun c d => enableInterrupt_staysOnPort self pin c d w hack,
    disableInterrupt_staysOnPort self pin w hack⟩
  · split_ifs <;> omega
  · simp [ownPort, otherPort, h8]
  · simp [ownPort, otherPort, Nat.not_lt.mpr h8]

/-- Witness for C16: `togglePin(GPA3)` on the sample chip reads `GPIOA` twice and
writes `OLATA`, and `enableInterrupt(GPB1, true, false)` accesses the control,
default-value and enable registers of port B. -/
theorem pin_operations_stay_on_port_witness :
    (∀ n, sampleBus.ack n = true) ∧
    StaysOnPort portA portB sampleBus (sampleDriver.togglePin .GPA3 sampleBus) ∧
    regOps sampleBus.ptr (newTxns sampleBus (sampleDriver.togglePin .GPA3 sampleBus)) =
      [RegOp.read GPIOA, RegOp.read GPIOA, RegOp.write OLATA 0x52] ∧
    StaysOnPort portB portA sampleBus (sampleDriver.enableInterrupt .GPB1 true false sampleBus) ∧
    regOps sampleBus.ptr
        (newTxns sampleBus (sampleDriver.enableInterrupt .GPB1 true false sampleBus)) =
      [RegOp.read INTCONB, RegOp.write INTCONB 0xA7, RegOp.read DEFVALB,
       RegOp.write DEFVALB 0xA5, RegOp.read INTEB, RegOp.write INTEB 0x2E] :=
  ⟨fun _ => rfl,
    (pin_operations_stay_on_port sampleDriver .GPA3 sampleBus (fun _ => rfl)).2.2.2.2.2.1,
    by decide,
    (pin_operations_stay_on_port sampleDriver .GPB1 sampleBus
      (fun _ => rfl)).2.2.2.2.2.2.2.2.1 true false,
    by decide⟩

end MCP23017
